import Mathlib

/-!
# ChatServer: a shallow embedding of `chat.h` / `chat.cc`

The program is a single-threaded `poll(2)` reactor (`Chat`) driving two
`Socket` objects.  The embedding makes the state explicit:

* `Socket`, `PollFd`, `Chat` mirror the C++ classes field by field;
* the operating system is an oracle `OS`: when the `n`-th system call issued
  by the program is a `close` it returns `os.closeRc n`, and so on for each
  call; a reading call leaves `os.readBuf n` (`os.recvBuf n`) in the buffer
  it was given, and a `poll` leaves `os.pollRevents n` in the five slots;
* `World` is what the program does to its environment: the number of system
  calls issued so far, the log of those calls, and the set of open
  descriptors;
* a C++ function that may throw becomes a function into `Result`, which
  carries the object state and the world in both outcomes.
-/

namespace ChatServer

/-! ## Constants of the platform headers (Linux values) -/

/-- Readiness bit `POLLIN` of `<poll.h>`. -/
def POLLIN : Nat := 1

/-- Readiness bit `POLLERR` of `<poll.h>`. -/
def POLLERR : Nat := 8

/-- Readiness bit `POLLHUP` of `<poll.h>`. -/
def POLLHUP : Nat := 16

/-- Error number `EINTR` of `<errno.h>`. -/
def EINTR : Int := 4

/-- Descriptor of the standard input, `<unistd.h>`. -/
def STDIN_FILENO : Int := 0

/-- Descriptor of the standard output, `<unistd.h>`. -/
def STDOUT_FILENO : Int := 1

/-- Descriptor of the standard error, `<unistd.h>`. -/
def STDERR_FILENO : Int := 2

/-- Value of `Chat::BACKLOG`. -/
def BACKLOG : Int := 5

/-- Value of `Chat::STDIN_INDEX`. -/
def STDIN_INDEX : Fin 5 := 0

/-- Value of `Chat::STDOUT_INDEX`. -/
def STDOUT_INDEX : Fin 5 := 1

/-- Value of `Chat::STDERR_INDEX`. -/
def STDERR_INDEX : Fin 5 := 2

/-- Value of `Chat::SERVER_INDEX`. -/
def SERVER_INDEX : Fin 5 := 3

/-- Value of `Chat::CLIENT_INDEX`. -/
def CLIENT_INDEX : Fin 5 := 4

/-- A `std::string` seen as its sequence of bytes. -/
abbrev Bytes := List UInt8

/-! ## The environment -/

/-- One interaction of the program with its environment. -/
inductive Event where
  | sysSocket (rc : Int)
  | sysSetsockopt (fd rc : Int)
  | sysBind (fd : Int) (addr port : Nat) (rc : Int)
  | sysListen (fd backlog rc : Int)
  | sysAccept (fd rc : Int)
  | sysClose (fd rc : Int)
  | sysSend (fd : Int) (payload : Bytes) (rc : Int)
  | sysRecv (fd rc : Int)
  | sysRead (fd rc : Int)
  | sysPoll (rc : Int)
  | coutWrite (payload : Bytes)
  deriving DecidableEq, Repr

/-- The operating system as an oracle indexed by the number of system calls
already issued. -/
structure OS where
  socketRc : Nat → Int
  setsockoptRc : Nat → Int
  bindRc : Nat → Int
  listenRc : Nat → Int
  acceptRc : Nat → Int
  closeRc : Nat → Int
  sendRc : Nat → Int
  recvRc : Nat → Int
  recvBuf : Nat → Bytes
  readRc : Nat → Int
  readBuf : Nat → Bytes
  pollRc : Nat → Int
  pollRevents : Nat → Fin 5 → Nat
  pollErrno : Nat → Int

/-- The environment as the program has shaped it so far. -/
structure World where
  tick : Nat
  trace : List Event
  openFds : List Int
  deriving DecidableEq, Repr

/-- Effect of one event on the set of open descriptors: a successful
`socket` or `accept` opens its result, a successful `close` releases its
argument; nothing else changes the set. -/
def Event.apply (e : Event) (fds : List Int) : List Int :=
  match e with
  | .sysSocket rc => if rc ≥ 0 then rc :: fds else fds
  | .sysAccept _ rc => if rc ≥ 0 then rc :: fds else fds
  | .sysClose fd rc => if rc = 0 then fds.filter (fun x => x ≠ fd) else fds
  | _ => fds

/-- Record a system call: it consumes one oracle index. -/
def World.call (w : World) (e : Event) : World :=
  { tick := w.tick + 1, trace := w.trace ++ [e], openFds := e.apply w.openFds }

/-- Record an output on `std::cout`: no system-call index is consumed. -/
def World.emit (w : World) (e : Event) : World :=
  { w with trace := w.trace ++ [e] }

/-- Outcome of a C++ member function on an object of type `σ`: normal
return with a value, or an exception with its `what()`. -/
inductive Result (σ : Type) (α : Type) where
  | ok (a : α) (s : σ) (w : World)
  | raise (what : String) (s : σ) (w : World)

/-- Object state carried by an outcome. -/
def Result.state {σ α : Type} : Result σ α → σ
  | .ok _ s _ => s
  | .raise _ s _ => s

/-- World carried by an outcome. -/
def Result.world {σ α : Type} : Result σ α → World
  | .ok _ _ w => w
  | .raise _ _ w => w

/-- Whether the outcome is a normal return. -/
def Result.isOk {σ α : Type} : Result σ α → Bool
  | .ok _ _ _ => true
  | .raise _ _ _ => false

/-- The `what()` of the exception, when there is one. -/
def Result.what {σ α : Type} : Result σ α → Option String
  | .ok _ _ _ => none
  | .raise m _ _ => some m

/-- The returned value, when there is one. -/
def Result.value {σ α : Type} : Result σ α → Option α
  | .ok a _ _ => some a
  | .raise _ _ _ => none

/-! ## Socket -/

/-- The class `Socket`: its only data member is `_fd`. -/
structure Socket where
  _fd : Int
  deriving DecidableEq, Repr

/-- Embeds `Socket::Socket()`. -/
def Socket.new : Socket := { _fd := -1 }

/-- Embeds `Socket::fd() const`. -/
def Socket.fd (s : Socket) : Int := s._fd

/-- Embeds `Socket::create()`. -/
def Socket.create (os : OS) (s : Socket) (w : World) : Result Socket Unit :=
  if s._fd < 0 then
    let rc := os.socketRc w.tick
    let w1 := w.call (.sysSocket rc)
    if rc ≥ 0 then .ok () { s with _fd := rc } w1
    else .raise "socket() has failed" s w1
  else .ok () s w

/-- Embeds `Socket::close()`. -/
def Socket.close (os : OS) (s : Socket) (w : World) : Result Socket Unit :=
  if s._fd ≥ 0 then
    let rc := os.closeRc w.tick
    let w1 := w.call (.sysClose s._fd rc)
    if rc = 0 then .ok () { s with _fd := -1 } w1
    else .raise "close has failed" s w1
  else .ok () s w

/-- Embeds `Socket::reset(fd)`, that is `_fd = (close(), fd)`. -/
def Socket.reset (os : OS) (fd : Int) (s : Socket) (w : World) : Result Socket Unit :=
  match s.close os w with
  | .ok _ s1 w1 => .ok () { s1 with _fd := fd } w1
  | .raise m s1 w1 => .raise m s1 w1

/-- Embeds `Socket::set_reuseaddr(value) const`. -/
def Socket.set_reuseaddr (os : OS) (_value : Bool) (s : Socket) (w : World) :
    Result Socket Unit :=
  let rc := os.setsockoptRc w.tick
  let w1 := w.call (.sysSetsockopt s._fd rc)
  if rc < 0 then .raise "setsockopt() has failed" s w1 else .ok () s w1

/-- Embeds `Socket::bind(addr, port)`. -/
def Socket.bind (os : OS) (addr port : Nat) (s : Socket) (w : World) : Result Socket Unit :=
  let rc := os.bindRc w.tick
  let w1 := w.call (.sysBind s._fd addr port rc)
  if rc < 0 then .raise "bind() has failed" s w1 else .ok () s w1

/-- Embeds `Socket::listen(backlog)`. -/
def Socket.listen (os : OS) (backlog : Int) (s : Socket) (w : World) : Result Socket Unit :=
  let rc := os.listenRc w.tick
  let w1 := w.call (.sysListen s._fd backlog rc)
  if rc < 0 then .raise "listen() has failed" s w1 else .ok () s w1

/-- Embeds `Socket::accept()`. -/
def Socket.accept (os : OS) (s : Socket) (w : World) : Result Socket Int :=
  let rc := os.acceptRc w.tick
  let w1 := w.call (.sysAccept s._fd rc)
  if rc < 0 then .raise "accept() has failed" s w1 else .ok rc s w1

/-- Embeds `Socket::send(string)`. -/
def Socket.send (os : OS) (string : Bytes) (s : Socket) (w : World) : Result Socket Unit :=
  let rc := os.sendRc w.tick
  let w1 := w.call (.sysSend s._fd string rc)
  if rc < 0 then .raise "send() has failed" s w1 else .ok () s w1

/-- Embeds `Socket::recv(string&)`: the value of the outcome is the caller's string
after the call.  `os.recvBuf` is the content of `data` after `::recv`, and
`std::string(data, rc)` is its first `rc` bytes. -/
def Socket.recv (os : OS) (string : Bytes) (s : Socket) (w : World) : Result Socket Bytes :=
  let rc := os.recvRc w.tick
  let data := os.recvBuf w.tick
  let w1 := w.call (.sysRecv s._fd rc)
  if rc < 0 then .raise "recv() has failed" s w1
  else if rc = 0 then
    match s.close os w1 with
    | .ok _ s2 w2 => .ok string s2 w2
    | .raise m s2 w2 => .raise m s2 w2
  else .ok (data.take rc.toNat) s w1

/-! ## Chat -/

/-- The `struct pollfd` of `<poll.h>`. -/
structure PollFd where
  fd : Int
  events : Nat
  revents : Nat
  deriving DecidableEq, Repr

/-- The class `Chat`. -/
structure Chat where
  _pollables : Fin 5 → PollFd
  _server : Socket
  _client : Socket
  _quit : Bool

/-- Embeds `Chat::Chat()`. -/
def Chat.new : Chat :=
  { _pollables := fun index =>
      if index = STDIN_INDEX then { fd := STDIN_FILENO, events := POLLIN, revents := 0 }
      else if index = STDOUT_INDEX then { fd := STDOUT_FILENO, events := 0, revents := 0 }
      else if index = STDERR_INDEX then { fd := STDERR_FILENO, events := 0, revents := 0 }
      else { fd := -1, events := 0, revents := 0 }
    _server := Socket.new
    _client := Socket.new
    _quit := false }

/-- Assignment to `_pollables[i]`. -/
def Chat.setPollable (c : Chat) (i : Fin 5) (p : PollFd) : Chat :=
  { c with _pollables := Function.update c._pollables i p }

/-- Run a member function of `_server` inside the `Chat` object. -/
def Chat.withServer {α : Type} (f : Socket → World → Result Socket α) (c : Chat)
    (w : World) : Result Chat α :=
  match f c._server w with
  | .ok a s w1 => .ok a { c with _server := s } w1
  | .raise m s w1 => .raise m { c with _server := s } w1

/-- Run a member function of `_client` inside the `Chat` object. -/
def Chat.withClient {α : Type} (f : Socket → World → Result Socket α) (c : Chat)
    (w : World) : Result Chat α :=
  match f c._client w with
  | .ok a s w1 => .ok a { c with _client := s } w1
  | .raise m s w1 => .raise m { c with _client := s } w1

/-- Sequencing of two statements: an exception in the first skips the second. -/
def Result.andThen {σ α β : Type} (r : Result σ α) (k : α → σ → World → Result σ β) :
    Result σ β :=
  match r with
  | .ok a s w => k a s w
  | .raise m s w => .raise m s w

/-- Embeds `Chat::quit()`. -/
def Chat.quit (os : OS) (c : Chat) (w : World) : Result Chat Unit :=
  (c.withServer (Socket.close os) w).andThen fun _ c1 w1 =>
  (c1.withClient (Socket.close os) w1).andThen fun _ c2 w2 =>
  .ok () { c2 with _quit := true } w2

/-- Embeds `Chat::on_error(pollable)`, with `pollable` being `_pollables[i]`. -/
def Chat.on_error (os : OS) (i : Fin 5) (c : Chat) (w : World) : Result Chat Unit :=
  (c.setPollable i { c._pollables i with fd := -1 }).quit os w

/-- Embeds `Chat::on_stdin(pollable)`, with `pollable` being `_pollables[i]`. -/
def Chat.on_stdin (os : OS) (i : Fin 5) (c : Chat) (w : World) : Result Chat Unit :=
  if (c._pollables i).fd < 0 then .ok () c w
  else if (c._pollables i).revents &&& POLLIN ≠ 0 then
    let rc := os.readRc w.tick
    let buffer := os.readBuf w.tick
    let w1 := w.call (.sysRead STDIN_FILENO rc)
    if rc < 0 then .raise "read() has failed" c w1
    else if c._client.fd ≥ 0 then
      c.withClient (Socket.send os (buffer.take rc.toNat)) w1
    else .ok () c w1
  else .ok () c w

/-- Embeds `Chat::on_stdout(pollable)`. -/
def Chat.on_stdout (_os : OS) (i : Fin 5) (c : Chat) (w : World) : Result Chat Unit :=
  if (c._pollables i).fd < 0 then .ok () c w else .ok () c w

/-- Embeds `Chat::on_stderr(pollable)`. -/
def Chat.on_stderr (_os : OS) (i : Fin 5) (c : Chat) (w : World) : Result Chat Unit :=
  if (c._pollables i).fd < 0 then .ok () c w else .ok () c w

/-- The last statement of `Chat::on_server`, reached from two of its paths:
`if(_server.fd() < 0) { pollable.fd = -1; quit(); }`. -/
def Chat.on_server_tail (os : OS) (i : Fin 5) (c : Chat) (w : World) : Result Chat Unit :=
  if c._server.fd < 0 then
    (c.setPollable i { c._pollables i with fd := -1 }).quit os w
  else .ok () c w

/-- Embeds `Chat::on_server(pollable)`, with `pollable` being `_pollables[i]`. -/
def Chat.on_server (os : OS) (i : Fin 5) (c : Chat) (w : World) : Result Chat Unit :=
  if (c._pollables i).fd < 0 then .ok () c w
  else if (c._pollables i).revents &&& POLLIN ≠ 0 then
    (c.withServer (Socket.accept os) w).andThen fun fd c1 w1 =>
      if c1._client.fd ≥ 0 then
        let rc := os.closeRc w1.tick
        let w2 := w1.call (.sysClose fd rc)
        if rc < 0 then .raise "close() has failed" c1 w2
        else .ok () c1 w2
      else
        (c1.withClient (Socket.reset os fd) w1).andThen fun _ c2 w2 =>
          let c3 := c2.setPollable CLIENT_INDEX
            { fd := c2._client.fd, events := POLLIN, revents := 0 }
          c3.on_server_tail os i w2
  else c.on_server_tail os i w

/-- The last statement of `Chat::on_client`:
`if(_client.fd() < 0) { pollable.fd = -1; quit(); }`. -/
def Chat.on_client_tail (os : OS) (i : Fin 5) (c : Chat) (w : World) : Result Chat Unit :=
  if c._client.fd < 0 then
    (c.setPollable i { c._pollables i with fd := -1 }).quit os w
  else .ok () c w

/-- Embeds `Chat::on_client(pollable)`, with `pollable` being `_pollables[i]`. -/
def Chat.on_client (os : OS) (i : Fin 5) (c : Chat) (w : World) : Result Chat Unit :=
  if (c._pollables i).fd < 0 then .ok () c w
  else if (c._pollables i).revents &&& POLLIN ≠ 0 then
    (if c._client.fd ≥ 0 then c.withClient (Socket.recv os []) w
     else .ok [] c w).andThen fun buffer c1 w1 =>
      c1.on_client_tail os i (w1.emit (.coutWrite buffer))
  else c.on_client_tail os i w

/-- The `switch(index)` of the dispatch loop. -/
def Chat.handler (os : OS) (index : Fin 5) (c : Chat) (w : World) : Result Chat Unit :=
  if index = STDIN_INDEX then c.on_stdin os index w
  else if index = STDOUT_INDEX then c.on_stdout os index w
  else if index = STDERR_INDEX then c.on_stderr os index w
  else if index = SERVER_INDEX then c.on_server os index w
  else c.on_client os index w

/-- Body of the `for` loop over `_pollables` for one slot: the handler of the
slot, then `on_error` when the slot's `revents` has `POLLHUP` or `POLLERR`. -/
def Chat.dispatch (os : OS) (index : Fin 5) (c : Chat) (w : World) : Result Chat Unit :=
  (c.handler os index w).andThen fun _ c1 w1 =>
    if (c1._pollables index).revents &&& (POLLHUP ||| POLLERR) ≠ 0 then
      c1.on_error os index w1
    else .ok () c1 w1

/-- The `for` loop over `_pollables`, from slot `index` on. -/
def Chat.dispatch_from (os : OS) : List (Fin 5) → Chat → World → Result Chat Unit
  | [], c, w => .ok () c w
  | index :: rest, c, w =>
    (c.dispatch os index w).andThen fun _ c1 w1 => Chat.dispatch_from os rest c1 w1

/-- The `for` loop over the five slots, in the order of the array. -/
def Chat.dispatch_all (os : OS) (c : Chat) (w : World) : Result Chat Unit :=
  Chat.dispatch_from os [0, 1, 2, 3, 4] c w

/-- The call `poll(_pollables.data(), _pollables.size(), timeout)`: the
kernel writes the `revents` of the five slots and returns `ready`.  The oracle
is free in what it writes; what the kernel does (zero for a slot whose
descriptor is negative) is one of its behaviours. -/
def Chat.poll (os : OS) (c : Chat) (w : World) : Int × Chat × World :=
  let ready := os.pollRc w.tick
  (ready,
   { c with _pollables := fun i => { c._pollables i with revents := os.pollRevents w.tick i } },
   w.call (.sysPoll ready))

/-- One iteration of the `while(_quit == false)` loop of `Chat::run`. -/
def Chat.loop_body (os : OS) (c : Chat) (w : World) : Result Chat Unit :=
  match c.poll os w with
  | (ready, c1, w1) =>
    if ready < 0 then
      if os.pollErrno w.tick = EINTR then .ok () c1 w1
      else .raise "poll() has failed" c1 w1
    else if ready = 0 then .ok () c1 w1
    else c1.dispatch_all os w1

/-- The `while(_quit == false)` loop, with a bound on the number of
iterations; `none` when the bound is reached with the loop still running. -/
def Chat.loop (os : OS) : Nat → Chat → World → Option (Result Chat Unit)
  | fuel, c, w =>
    if c._quit = false then
      match fuel with
      | 0 => none
      | n + 1 =>
        match c.loop_body os w with
        | .ok _ c1 w1 => Chat.loop os n c1 w1
        | .raise m c1 w1 => some (.raise m c1 w1)
    else some (.ok () c w)

/-- The lambda `init` of `Chat::run`. -/
def Chat.init (os : OS) (addr port : Nat) (c : Chat) (w : World) : Result Chat Unit :=
  (c.withServer (Socket.create os) w).andThen fun _ c1 w1 =>
  (c1.withServer (Socket.set_reuseaddr os true) w1).andThen fun _ c2 w2 =>
  (c2.withServer (Socket.bind os addr port) w2).andThen fun _ c3 w3 =>
  (c3.withServer (Socket.listen os BACKLOG) w3).andThen fun _ c4 w4 =>
  .ok () (c4.setPollable SERVER_INDEX
    { fd := c4._server.fd, events := POLLIN, revents := 0 }) w4

/-- Embeds `Chat::run(addr, port)`. -/
def Chat.run (os : OS) (addr port : Nat) (fuel : Nat) (c : Chat) (w : World) :
    Option (Result Chat Unit) :=
  if c._quit = false then
    match c.init os addr port w with
    | .ok _ c1 w1 => Chat.loop os fuel c1 w1
    | .raise m c1 w1 => some (.raise m c1 w1)
  else some (.ok () c w)

/-! ## Sequences of calls on one `Socket` -/

/-- The two member functions that release or replace the owned descriptor. -/
inductive SockOp where
  | reset (fd : Int)
  | close
  deriving DecidableEq, Repr

/-- Call the member function named by `op`. -/
def Socket.perform (os : OS) (op : SockOp) (s : Socket) (w : World) : Result Socket Unit :=
  match op with
  | .reset fd => s.reset os fd w
  | .close => s.close os w

/-- Descriptors owned by a `Socket`: `_fd` when it is not negative. -/
def Socket.owned (s : Socket) : List Int :=
  if s._fd ≥ 0 then [s._fd] else []

/-- A `Socket` in its world, with the descriptors it has owned so far. -/
structure Tracked where
  sock : Socket
  world : World
  everOwned : List Int
  deriving DecidableEq, Repr

/-- A `Socket` at the start of its history. -/
def Tracked.start (s : Socket) (w : World) : Tracked :=
  { sock := s, world := w, everOwned := s.owned }

/-- Run a sequence of `reset` / `close` calls.  A call that throws leaves the
object as the exception found it and the caller goes on with the next call
(as `Socket::~Socket` does after a failed `close`). -/
def Tracked.runOps (os : OS) : List SockOp → Tracked → Tracked
  | [], t => t
  | op :: ops, t =>
    let r := t.sock.perform os op t.world
    Tracked.runOps os ops
      { sock := r.state, world := r.world, everOwned := r.state.owned ++ t.everOwned }

/-- What is known of a `Socket` and the descriptors it has owned: they are
all non-negative, and one that is still open is the one owned now. -/
def Tracked.Safe (t : Tracked) : Prop :=
  (∀ fd ∈ t.everOwned, 0 ≤ fd) ∧
  (∀ fd ∈ t.everOwned, fd ∈ t.world.openFds → fd = t.sock._fd)

/-! ## Concrete environments used to exercise the definitions -/

/-- An operating system on which every call succeeds: `socket` returns 3,
`accept` returns 4, reads return no byte and `poll` reports no ready slot. -/
def osQuiet : OS :=
  { socketRc := fun _ => 3, setsockoptRc := fun _ => 0, bindRc := fun _ => 0,
    listenRc := fun _ => 0, acceptRc := fun _ => 4, closeRc := fun _ => 0,
    sendRc := fun _ => 0, recvRc := fun _ => 0, recvBuf := fun _ => [],
    readRc := fun _ => 0, readBuf := fun _ => [], pollRc := fun _ => 0,
    pollRevents := fun _ _ => 0, pollErrno := fun _ => 0 }

/-- As `osQuiet`, with every `close` failing. -/
def osCloseFails : OS := { osQuiet with closeRc := fun _ => -1 }

/-- As `osQuiet`, with `recv` delivering the two bytes `hi`. -/
def osRecvHi : OS := { osQuiet with recvRc := fun _ => 2, recvBuf := fun _ => [104, 105] }

/-- A process with only the three standard descriptors open. -/
def world0 : World := { tick := 0, trace := [], openFds := [0, 1, 2] }

/-- A process with the standard descriptors and descriptor 3 open. -/
def world3 : World := { tick := 0, trace := [], openFds := [3, 0, 1, 2] }

/-! ## Observations on the log -/

/-- Whether an event is a `recv` that read no byte. -/
def Event.isZeroRecv : Event → Bool
  | .sysRecv _ rc => decide (rc = 0)
  | _ => false

/-- Number of zero-length `recv` calls issued so far. -/
def World.zeroReads (w : World) : Nat :=
  (w.trace.filter Event.isZeroRecv).length

/-- An operating system whose `close`, `accept`, `send`, `recv`, `read` and
`poll` calls never fail. -/
def OS.NoFailure (os : OS) : Prop :=
  ∀ t, os.closeRc t = 0 ∧ 0 ≤ os.acceptRc t ∧ 0 ≤ os.sendRc t ∧ 0 ≤ os.recvRc t ∧
    0 ≤ os.readRc t ∧ 0 ≤ os.pollRc t

/-! ## Relations between the watch slots and the sockets -/

/-- What holds between two slots of the dispatch loop: a CLIENT slot that is
off holds -1 and goes with a `_client` that owns nothing, and a SERVER slot
holding -1 goes with a `_server` that owns nothing. -/
def Chat.Mid (c : Chat) : Prop :=
  ((c._pollables CLIENT_INDEX).fd < 0 →
    (c._pollables CLIENT_INDEX).fd = -1 ∧ c._client.fd < 0) ∧
  ((c._pollables SERVER_INDEX).fd = -1 → c._server.fd < 0)

/-- What holds at the end of an iteration: the CLIENT slot holds -1 exactly
when `_client` owns nothing, and a SERVER slot holding -1 goes with a
`_server` that owns nothing. -/
def Chat.Sync (c : Chat) : Prop :=
  ((c._pollables CLIENT_INDEX).fd < 0 → (c._pollables CLIENT_INDEX).fd = -1) ∧
  ((c._pollables CLIENT_INDEX).fd = -1 ↔ c._client.fd < 0) ∧
  ((c._pollables SERVER_INDEX).fd = -1 → c._server.fd < 0)

/-- What holds of the SERVER slot while slots 0 to 2 are dispatched: with
`_quit` unset the slot holds the descriptor `_server` owns; with `_quit` set
both sockets own nothing and the slot still holds a descriptor. -/
def Chat.BeforeServer (c : Chat) : Prop :=
  (c._quit = false →
    (c._pollables SERVER_INDEX).fd = c._server._fd ∧ 0 ≤ c._server._fd) ∧
  (c._quit = true →
    c._server._fd < 0 ∧ c._client._fd < 0 ∧ 0 ≤ (c._pollables SERVER_INDEX).fd)

/-- What holds of the SERVER slot once slot 3 has been dispatched: with
`_quit` unset the slot holds the descriptor `_server` owns; with `_quit` set
the slot holds -1 and both sockets own nothing. -/
def Chat.AfterServer (c : Chat) : Prop :=
  (c._quit = false →
    (c._pollables SERVER_INDEX).fd = c._server._fd ∧ 0 ≤ c._server._fd) ∧
  (c._quit = true →
    (c._pollables SERVER_INDEX).fd = -1 ∧ c._server._fd < 0 ∧ c._client._fd < 0)

/-- What holds at the end of an iteration of a run: `Chat.Sync`, and with
`_quit` unset the SERVER slot holds the descriptor `_server` owns. -/
def Chat.Running (c : Chat) : Prop :=
  c.Sync ∧
  (c._quit = false →
    (c._pollables SERVER_INDEX).fd = c._server._fd ∧ 0 ≤ c._server._fd)

/-! ## States reached by the reactor -/

/-- The state after `n` more iterations of the loop of `Chat::run`, each of
them entered with `_quit == false` and completed without an exception. -/
def Chat.iterations (os : OS) : Nat → Chat → World → Option (Chat × World)
  | 0, c, w => some (c, w)
  | n + 1, c, w =>
    if c._quit = false then
      match c.loop_body os w with
      | .ok _ c1 w1 => Chat.iterations os n c1 w1
      | .raise _ _ _ => none
    else none

/-- The outcome of the wait and of the dispatch of slots 0 to 3 of an
iteration: its state is the one in which the CLIENT slot is dispatched. -/
def Chat.before_client (os : OS) (c : Chat) (w : World) : Result Chat Unit :=
  Chat.dispatch_from os [0, 1, 2, 3] (c.poll os w).2.1 (c.poll os w).2.2

/-- An operating system for the run in which one peer connects and then
closes: `socket` returns 3, the first `poll` reports the SERVER slot
readable, `accept` returns 4, the second `poll` reports the CLIENT slot
readable, `recv` reads no byte, and every `close` succeeds. -/
def osPeerCloses : OS :=
  { osQuiet with
    pollRc := fun _ => 1
    pollRevents := fun t i =>
      if t = 4 ∧ i = SERVER_INDEX then POLLIN
      else if t = 6 ∧ i = CLIENT_INDEX then POLLIN
      else 0 }

/-- The state `init` leaves in the run of `osPeerCloses`. -/
def peerClosesStart : Chat × World :=
  ((Chat.new.init osPeerCloses 0 10000 world0).state,
   (Chat.new.init osPeerCloses 0 10000 world0).world)

/-- The state after the first iteration of the run of `osPeerCloses`: the
peer is connected. -/
def peerClosesMiddle : Chat × World :=
  (Chat.iterations osPeerCloses 1 peerClosesStart.1 peerClosesStart.2).getD (Chat.new, world0)

/-- The state after the second iteration of the run of `osPeerCloses`: the
peer has closed. -/
def peerClosesEnd : Chat × World :=
  (Chat.iterations osPeerCloses 2 peerClosesStart.1 peerClosesStart.2).getD (Chat.new, world0)

/-! ## Concrete reactor states used to exercise the definitions -/

/-- The reactor listening on descriptor 3 with the peer on descriptor 4. -/
def chatConnected : Chat :=
  { _pollables := fun index =>
      if index = STDIN_INDEX then { fd := STDIN_FILENO, events := POLLIN, revents := 0 }
      else if index = STDOUT_INDEX then { fd := STDOUT_FILENO, events := 0, revents := 0 }
      else if index = STDERR_INDEX then { fd := STDERR_FILENO, events := 0, revents := 0 }
      else if index = SERVER_INDEX then { fd := 3, events := POLLIN, revents := 0 }
      else { fd := 4, events := POLLIN, revents := 0 }
    _server := { _fd := 3 }
    _client := { _fd := 4 }
    _quit := false }

/-- The reactor listening on descriptor 3 with no peer. -/
def chatListening : Chat :=
  { _pollables := fun index =>
      if index = STDIN_INDEX then { fd := STDIN_FILENO, events := POLLIN, revents := 0 }
      else if index = STDOUT_INDEX then { fd := STDOUT_FILENO, events := 0, revents := 0 }
      else if index = STDERR_INDEX then { fd := STDERR_FILENO, events := 0, revents := 0 }
      else if index = SERVER_INDEX then { fd := 3, events := POLLIN, revents := 0 }
      else { fd := -1, events := 0, revents := 0 }
    _server := { _fd := 3 }
    _client := { _fd := -1 }
    _quit := false }

/-- A reactor state as a wait leaves it, with `revents` observed on the slots. -/
def Chat.observed (c : Chat) (revents : Fin 5 → Nat) : Chat :=
  { c with _pollables := fun i => { c._pollables i with revents := revents i } }

/-- A process with the standard descriptors, the listening socket 3 and the
peer 4 open. -/
def world4 : World := { tick := 0, trace := [], openFds := [4, 3, 0, 1, 2] }

/-- As `osQuiet`, with `accept` returning the new descriptor 5. -/
def osSecondPeer : OS := { osQuiet with acceptRc := fun _ => 5 }

/-- As `osQuiet`, with `poll` interrupted by a signal. -/
def osInterrupted : OS := { osQuiet with pollRc := fun _ => -1, pollErrno := fun _ => EINTR }

/-- As `osQuiet`, with `poll` reporting the CLIENT slot readable. -/
def osClientReadable : OS :=
  { osQuiet with
    pollRc := fun _ => 1
    pollRevents := fun _ i => if i = CLIENT_INDEX then POLLIN else 0 }

/-- Bytes taken by the operating system for transmission on descriptor `fd`:
each `send` call on `fd` contributes the first `rc` bytes of its payload,
`rc` being the count the call returned (nothing when it failed). -/
def transmitted (fd : Int) : List Event → Bytes
  | [] => []
  | .sysSend fd1 payload rc :: es =>
    (if fd1 = fd then payload.take rc.toNat else []) ++ transmitted fd es
  | _ :: es => transmitted fd es

/-- Bytes written to `std::cout`, in order. -/
def written : List Event → Bytes
  | [] => []
  | .coutWrite payload :: es => payload ++ written es
  | _ :: es => written es

/-- As `osQuiet`, with `read` delivering the five bytes `hello` and `send`
taking all five. -/
def osTyped : OS :=
  { osQuiet with
    readRc := fun _ => 5
    readBuf := fun _ => [104, 101, 108, 108, 111]
    sendRc := fun _ => 5 }

/-- As `osTyped`, with `send` taking only two of the bytes it is given. -/
def osShortSend : OS := { osTyped with sendRc := fun _ => 2 }

/-- An operating system for the iteration in which the standard input hangs
up while a connection is pending: `poll` reports two ready slots, `POLLHUP`
on STDIN and `POLLIN` on SERVER, every `close` succeeds, and `accept` fails
(as it does on a descriptor that is not open). -/
def osStdinHangup : OS :=
  { osQuiet with
    pollRc := fun _ => 2
    pollRevents := fun _ i =>
      if i = STDIN_INDEX then POLLHUP else if i = SERVER_INDEX then POLLIN else 0
    acceptRc := fun _ => -1 }

/-! ## Socket: theorems -/

theorem Socket.close_of_neg (os : OS) (s : Socket) (w : World) (h : s._fd < 0) :
    s.close os w = .ok () s w := by
  simp [Socket.close, not_le.mpr h]

theorem Socket.close_of_nonneg (os : OS) (s : Socket) (w : World) (h : 0 ≤ s._fd) :
    s.close os w =
      if os.closeRc w.tick = 0 then
        .ok () { _fd := -1 } (w.call (.sysClose s._fd (os.closeRc w.tick)))
      else .raise "close has failed" s (w.call (.sysClose s._fd (os.closeRc w.tick))) := by
  simp [Socket.close, h]

/-- C6. `Socket::close` on a `Socket` that owns no descriptor (`_fd < 0`)
returns normally with the object and the world unchanged, so no release call
is issued and nothing is thrown; and whenever a `close` returns normally, a
second `close` right after it changes nothing: `close(); close()` equals
`close()`. -/
theorem Socket.close_idempotent (os : OS) (s : Socket) (w : World) :
    (s._fd < 0 → s.close os w = .ok () s w) ∧
    ((s.close os w).isOk = true →
      (s.close os w).andThen (fun _ s1 w1 => s1.close os w1) = s.close os w) := by
  refine ⟨Socket.close_of_neg os s w, ?_⟩
  intro h
  by_cases hfd : 0 ≤ s._fd
  · rw [Socket.close_of_nonneg os s w hfd] at h ⊢
    by_cases hrc : os.closeRc w.tick = 0
    · simp [hrc, Result.andThen, Socket.close]
    · simp [hrc, Result.isOk] at h
  · have hneg : s._fd < 0 := not_le.mp hfd
    simp [Socket.close_of_neg os s w hneg, Result.andThen]

/-- Witness of C6: a fresh `Socket` (`_fd = -1`) is closed without any call,
and closing descriptor 3 twice is closing it once. -/
theorem Socket.close_idempotent_witness :
    Socket.new.close osQuiet world0 = .ok () Socket.new world0 ∧
    ((Socket.mk 3).close osQuiet world3).andThen (fun _ s1 w1 => s1.close osQuiet w1)
      = (Socket.mk 3).close osQuiet world3 :=
  ⟨(Socket.close_idempotent osQuiet Socket.new world0).1 (by decide),
   (Socket.close_idempotent osQuiet (Socket.mk 3) world3).2 (by decide)⟩

theorem Socket.reset_of_neg (os : OS) (d : Int) (s : Socket) (w : World) (h : s._fd < 0) :
    s.reset os d w = .ok () { _fd := d } w := by
  simp [Socket.reset, Socket.close_of_neg os s w h]

theorem Socket.reset_of_nonneg (os : OS) (d : Int) (s : Socket) (w : World) (h : 0 ≤ s._fd) :
    s.reset os d w =
      if os.closeRc w.tick = 0 then
        .ok () { _fd := d } (w.call (.sysClose s._fd (os.closeRc w.tick)))
      else .raise "close has failed" s (w.call (.sysClose s._fd (os.closeRc w.tick))) := by
  rw [Socket.reset, Socket.close_of_nonneg os s w h]
  by_cases hrc : os.closeRc w.tick = 0 <;> simp [hrc]

theorem World.not_mem_openFds_call_close (w : World) (fd : Int) :
    fd ∉ (w.call (.sysClose fd 0)).openFds := by
  simp [World.call, Event.apply]

theorem Socket.mem_owned (s : Socket) (fd : Int) : fd ∈ s.owned ↔ (fd = s._fd ∧ 0 ≤ fd) := by
  unfold Socket.owned
  by_cases h : 0 ≤ s._fd
  · simp [h]
    intro hfd; omega
  · simp [h]
    intro hfd; omega

theorem Socket.owned_length_le (s : Socket) : s.owned.length ≤ 1 := by
  unfold Socket.owned
  split_ifs <;> simp

theorem Tracked.safe_start (s : Socket) (w : World) : (Tracked.start s w).Safe := by
  constructor
  · intro fd hfd
    exact ((Socket.mem_owned s fd).mp hfd).2
  · intro fd hfd _
    exact ((Socket.mem_owned s fd).mp hfd).1

theorem Tracked.safe_step (os : OS) (op : SockOp) (t : Tracked) (h : t.Safe) :
    Tracked.Safe
      { sock := (t.sock.perform os op t.world).state
        world := (t.sock.perform os op t.world).world
        everOwned := (t.sock.perform os op t.world).state.owned ++ t.everOwned } := by
  obtain ⟨hnn, hopen⟩ := h
  have key : ∀ fd ∈ t.everOwned,
      fd ∈ (t.sock.perform os op t.world).world.openFds →
      fd = (t.sock.perform os op t.world).state._fd := by
    intro fd hfd hin
    have h0 := hnn fd hfd
    by_cases hown : 0 ≤ t.sock._fd
    · by_cases hrc : os.closeRc t.world.tick = 0
      · exfalso
        cases op <;>
          simp [Socket.perform, Socket.reset_of_nonneg _ _ _ _ hown,
            Socket.close_of_nonneg _ _ _ hown, hrc, Result.world, World.call,
            Event.apply] at hin <;>
          exact hin.2 (hopen fd hfd hin.1)
      · cases op <;>
          simp [Socket.perform, Socket.reset_of_nonneg _ _ _ _ hown,
            Socket.close_of_nonneg _ _ _ hown, hrc, Result.world, Result.state, World.call,
            Event.apply] at hin ⊢ <;>
          exact hopen fd hfd hin
    · have hneg : t.sock._fd < 0 := not_le.mp hown
      exfalso
      cases op <;>
        simp [Socket.perform, Socket.reset_of_neg _ _ _ _ hneg,
          Socket.close_of_neg _ _ _ hneg, Result.world] at hin <;>
        have := hopen fd hfd hin <;> omega
  constructor
  · intro fd hfd
    rcases List.mem_append.mp hfd with h1 | h1
    · exact ((Socket.mem_owned _ fd).mp h1).2
    · exact hnn fd h1
  · intro fd hfd hin
    rcases List.mem_append.mp hfd with h1 | h1
    · exact ((Socket.mem_owned _ fd).mp h1).1
    · exact key fd h1 hin

theorem Tracked.safe_runOps (os : OS) (ops : List SockOp) :
    ∀ t : Tracked, t.Safe → (Tracked.runOps os ops t).Safe := by
  induction ops with
  | nil => intro t h; exact h
  | cons op ops ih =>
    intro t h
    exact ih _ (Tracked.safe_step os op t h)

/-- C4. `Socket::reset(d)` returns normally exactly when nothing is owned or
the release of the owned descriptor succeeds; when it returns, the `Socket`
owns `d`, and a descriptor owned before has been released by one `close` call
issued first and is no longer open; when the release fails nothing is adopted.
Over every sequence of `reset` / `close` calls the `Socket` owns at most one
descriptor, and every descriptor it has owned and that is still open is the
one it owns now. -/
theorem Socket.reset_releases_then_adopts (os : OS) (s : Socket) (w : World) (d : Int) :
    ((s.reset os d w).isOk = true ↔ (s._fd < 0 ∨ os.closeRc w.tick = 0)) ∧
    (∀ s1 w1, s.reset os d w = .ok () s1 w1 →
      s1._fd = d ∧
      (0 ≤ s._fd → w1 = w.call (.sysClose s._fd 0) ∧ s._fd ∉ w1.openFds) ∧
      (s._fd < 0 → w1 = w)) ∧
    (∀ m s1 w1, s.reset os d w = .raise m s1 w1 → s1 = s) ∧
    (∀ ops : List SockOp,
      (Tracked.runOps os ops (Tracked.start s w)).sock.owned.length ≤ 1 ∧
      ∀ fd ∈ (Tracked.runOps os ops (Tracked.start s w)).everOwned,
        fd ∈ (Tracked.runOps os ops (Tracked.start s w)).world.openFds →
        fd ∈ (Tracked.runOps os ops (Tracked.start s w)).sock.owned) := by
  refine ⟨?_, ?_, ?_, ?_⟩
  · by_cases hown : 0 ≤ s._fd
    · rw [Socket.reset_of_nonneg os d s w hown]
      by_cases hrc : os.closeRc w.tick = 0
      · simp [hrc, Result.isOk]
      · simp [hrc, Result.isOk]; omega
    · have hneg : s._fd < 0 := not_le.mp hown
      simp [Socket.reset_of_neg os d s w hneg, Result.isOk, hneg]
  · intro s1 w1 h
    by_cases hown : 0 ≤ s._fd
    · rw [Socket.reset_of_nonneg os d s w hown] at h
      by_cases hrc : os.closeRc w.tick = 0
      · simp [hrc] at h
        obtain ⟨hs, hw⟩ := h
        subst hs; subst hw
        refine ⟨rfl, fun _ => ⟨rfl, World.not_mem_openFds_call_close w s._fd⟩, fun hneg => ?_⟩
        omega
      · simp [hrc] at h
    · have hneg : s._fd < 0 := not_le.mp hown
      simp [Socket.reset_of_neg os d s w hneg] at h
      obtain ⟨hs, hw⟩ := h
      subst hs; subst hw
      exact ⟨rfl, fun h0 => absurd h0 hown, fun _ => rfl⟩
  · intro m s1 w1 h
    by_cases hown : 0 ≤ s._fd
    · rw [Socket.reset_of_nonneg os d s w hown] at h
      by_cases hrc : os.closeRc w.tick = 0
      · simp [hrc] at h
      · simp [hrc] at h
        exact h.2.1.symm
    · have hneg : s._fd < 0 := not_le.mp hown
      simp [Socket.reset_of_neg os d s w hneg] at h
  · intro ops
    refine ⟨Socket.owned_length_le _, ?_⟩
    intro fd hfd hin
    have hsafe := Tracked.safe_runOps os ops _ (Tracked.safe_start s w)
    exact (Socket.mem_owned _ fd).mpr ⟨hsafe.2 fd hfd hin, hsafe.1 fd hfd⟩

/-- Witness of C4: a `Socket` owning the open descriptor 3 adopts 4; after a
`reset(4)`, a `close()` and a `reset(5)` it owns 5 alone and neither 3 nor 4
is open. -/
theorem Socket.reset_releases_then_adopts_witness :
    ((Socket.mk 3).reset osQuiet 4 world3).isOk = true ∧
    (∀ s1 w1, (Socket.mk 3).reset osQuiet 4 world3 = .ok () s1 w1 →
      s1._fd = 4 ∧
      (0 ≤ (Socket.mk 3)._fd →
        w1 = world3.call (.sysClose (Socket.mk 3)._fd 0) ∧ (Socket.mk 3)._fd ∉ w1.openFds) ∧
      ((Socket.mk 3)._fd < 0 → w1 = world3)) ∧
    (Tracked.runOps osQuiet [.reset 4, .close, .reset 5]
      (Tracked.start (Socket.mk 3) world3)).sock.owned = [5] ∧
    (Tracked.runOps osQuiet [.reset 4, .close, .reset 5]
      (Tracked.start (Socket.mk 3) world3)).everOwned = [5, 4, 3] ∧
    ∀ fd ∈ (Tracked.runOps osQuiet [.reset 4, .close, .reset 5]
        (Tracked.start (Socket.mk 3) world3)).everOwned,
      fd ∈ (Tracked.runOps osQuiet [.reset 4, .close, .reset 5]
        (Tracked.start (Socket.mk 3) world3)).world.openFds →
      fd ∈ (Tracked.runOps osQuiet [.reset 4, .close, .reset 5]
        (Tracked.start (Socket.mk 3) world3)).sock.owned :=
  ⟨(Socket.reset_releases_then_adopts osQuiet (Socket.mk 3) world3 4).1.mpr
      (Or.inr (by decide)),
   (Socket.reset_releases_then_adopts osQuiet (Socket.mk 3) world3 4).2.1,
   by decide, by decide,
   ((Socket.reset_releases_then_adopts osQuiet (Socket.mk 3) world3 4).2.2.2
      [.reset 4, .close, .reset 5]).2⟩

/-- C5, as stated, fails.  With the caller's string holding `hi` and a
zero-length read, `Socket::recv` returns normally with the string still
holding `hi`, not the empty string; and with an empty string, a zero-length
read and a failing release, `Socket::recv` throws `close has failed` and the
descriptor stays 3. -/
theorem Socket.recv_closure_counterexample :
    (Socket.mk 3).recv osQuiet [104, 105] world3
      = .ok [104, 105] (Socket.mk (-1))
          ((world3.call (.sysRecv 3 0)).call (.sysClose 3 0)) ∧
    ((Socket.mk 3).recv osQuiet [104, 105] world3).value ≠ some [] ∧
    ((Socket.mk 3).recv osCloseFails [] world3).what = some "close has failed" ∧
    ((Socket.mk 3).recv osCloseFails [] world3).state._fd = 3 := by
  refine ⟨by rfl, by decide, by decide, by decide⟩

/-- C5, amended.  On a `Socket` that owns a descriptor, a zero-length read
makes `Socket::recv` call `close()`: when the release succeeds `recv` returns
normally, the descriptor is -1 and the caller's string is returned as it was
supplied (empty when it was supplied empty); when the release fails `recv`
throws `close has failed` and keeps the descriptor.  When the read returns
`n > 0` bytes (`n ≤ 1024`) `recv` returns normally, the string is the first
`n` bytes of the buffer, and the descriptor is unchanged. -/
theorem Socket.recv_outcomes (os : OS) (string : Bytes) (s : Socket) (w : World)
    (hown : 0 ≤ s._fd) :
    (os.recvRc w.tick = 0 → os.closeRc (w.tick + 1) = 0 →
      s.recv os string w
        = .ok string { _fd := -1 } ((w.call (.sysRecv s._fd 0)).call (.sysClose s._fd 0))) ∧
    (os.recvRc w.tick = 0 → os.closeRc (w.tick + 1) ≠ 0 →
      s.recv os string w
        = .raise "close has failed" s
            ((w.call (.sysRecv s._fd 0)).call
              (.sysClose s._fd (os.closeRc (w.tick + 1))))) ∧
    (∀ n : Nat, 0 < n → n ≤ 1024 → os.recvRc w.tick = (n : Int) →
      s.recv os string w
        = .ok ((os.recvBuf w.tick).take n) s (w.call (.sysRecv s._fd n)) ∧
      (n ≤ (os.recvBuf w.tick).length → ((os.recvBuf w.tick).take n).length = n)) := by
  refine ⟨?_, ?_, ?_⟩
  · intro hrc hcl
    have hw : (w.call (.sysRecv s._fd 0)).tick = w.tick + 1 := rfl
    simp [Socket.recv, hrc, Socket.close_of_nonneg os s _ hown, hw, hcl]
  · intro hrc hcl
    have hw : (w.call (.sysRecv s._fd 0)).tick = w.tick + 1 := rfl
    simp [Socket.recv, hrc, Socket.close_of_nonneg os s _ hown, hw, hcl]
  · intro n hn _ hrc
    have h1 : ¬ ((n : Int) < 0) := by omega
    have h2 : ¬ ((n : Int) = 0) := by omega
    refine ⟨?_, ?_⟩
    · simp [Socket.recv, hrc, h2]
    · intro hlen
      simp [List.length_take, hlen]

/-- Witness of C5, amended: descriptor 3 with a zero-length read and the
caller's string `hi`; and descriptor 3 receiving the two bytes `hi`. -/
theorem Socket.recv_outcomes_witness :
    (Socket.mk 3).recv osQuiet [104, 105] world3
      = .ok [104, 105] { _fd := -1 }
          ((world3.call (.sysRecv 3 0)).call (.sysClose 3 0)) ∧
    (Socket.mk 3).recv osRecvHi [] world3
      = .ok [104, 105] (Socket.mk 3) (world3.call (.sysRecv 3 2)) :=
  ⟨(Socket.recv_outcomes osQuiet [104, 105] (Socket.mk 3) world3 (by decide)).1
      (by decide) (by decide),
   ((Socket.recv_outcomes osRecvHi [] (Socket.mk 3) world3 (by decide)).2.2
      2 (by decide) (by decide) (by decide)).1⟩

/-! ## Chat: outcomes of the building blocks -/

theorem Result.andThen_eq_ok {σ α β : Type} (r : Result σ α)
    (k : α → σ → World → Result σ β) (b : β) (s : σ) (w : World) :
    r.andThen k = .ok b s w ↔ ∃ a s0 w0, r = .ok a s0 w0 ∧ k a s0 w0 = .ok b s w := by
  cases r with
  | ok a0 s1 w1 =>
    constructor
    · intro h; exact ⟨a0, s1, w1, rfl, h⟩
    · rintro ⟨a, s0, w0, h1, h2⟩
      cases h1
      exact h2
  | raise m s1 w1 => simp [Result.andThen]

theorem Result.andThen_isOk {σ α β : Type} (r : Result σ α)
    (k : α → σ → World → Result σ β) (hr : r.isOk = true)
    (hk : ∀ a s w, (k a s w).isOk = true) : (r.andThen k).isOk = true := by
  cases r with
  | ok a s w => simpa [Result.andThen] using hk a s w
  | raise m s w => simp [Result.isOk] at hr

theorem World.zeroReads_call (w : World) (e : Event) :
    (w.call e).zeroReads = w.zeroReads + (if e.isZeroRecv = true then 1 else 0) := by
  unfold World.zeroReads World.call
  by_cases h : e.isZeroRecv = true <;> simp [List.filter_append, h]

theorem World.zeroReads_emit (w : World) (e : Event) (h : e.isZeroRecv = false) :
    (w.emit e).zeroReads = w.zeroReads := by
  unfold World.zeroReads World.emit
  simp [List.filter_append, h]

theorem World.zeroReads_emit_cout (w : World) (b : Bytes) :
    (w.emit (.coutWrite b)).zeroReads = w.zeroReads :=
  World.zeroReads_emit w _ rfl

theorem Socket.close_ok {os : OS} {s s1 : Socket} {w w1 : World}
    (h : s.close os w = .ok () s1 w1) :
    s1._fd < 0 ∧ (s._fd < 0 → s1 = s ∧ w1 = w) ∧ w1.zeroReads = w.zeroReads := by
  by_cases hown : 0 ≤ s._fd
  · rw [Socket.close_of_nonneg os s w hown] at h
    by_cases hrc : os.closeRc w.tick = 0
    · simp [hrc] at h
      obtain ⟨hs, hw⟩ := h
      subst hs; subst hw
      refine ⟨by decide, fun hneg => by omega, ?_⟩
      simp [World.zeroReads_call, Event.isZeroRecv]
    · simp [hrc] at h
  · have hneg : s._fd < 0 := not_le.mp hown
    simp [Socket.close_of_neg os s w hneg] at h
    obtain ⟨hs, hw⟩ := h
    subst hs; subst hw
    exact ⟨hneg, fun _ => ⟨rfl, rfl⟩, rfl⟩

theorem Socket.close_isOk {os : OS} (hos : os.NoFailure) (s : Socket) (w : World) :
    (s.close os w).isOk = true := by
  by_cases hown : 0 ≤ s._fd
  · simp [Socket.close_of_nonneg os s w hown, (hos w.tick).1, Result.isOk]
  · simp [Socket.close_of_neg os s w (not_le.mp hown), Result.isOk]

theorem Chat.quit_ok {os : OS} {c c1 : Chat} {w w1 : World}
    (h : c.quit os w = .ok () c1 w1) :
    c1._pollables = c._pollables ∧ c1._server._fd < 0 ∧ c1._client._fd < 0 ∧
    c1._quit = true ∧ w1.zeroReads = w.zeroReads ∧
    (c._server._fd < 0 → c1._server = c._server) := by
  unfold Chat.quit Chat.withServer Chat.withClient at h
  cases hs : c._server.close os w with
  | raise m s2 w2 => simp [hs, Result.andThen] at h
  | ok a s2 w2 =>
    cases hc : c._client.close os w2 with
    | raise m s3 w3 => simp [hs, hc, Result.andThen] at h
    | ok b s3 w3 =>
      simp [hs, hc, Result.andThen] at h
      obtain ⟨hc1, hw1⟩ := h
      subst hc1; subst hw1
      have h1 := Socket.close_ok hs
      have h2 := Socket.close_ok hc
      refine ⟨rfl, h1.1, h2.1, rfl, ?_, fun hneg => (h1.2.1 hneg).1⟩
      rw [h2.2.2, h1.2.2]

theorem Chat.quit_isOk {os : OS} (hos : os.NoFailure) (c : Chat) (w : World) :
    (c.quit os w).isOk = true := by
  unfold Chat.quit Chat.withServer Chat.withClient
  have hs := Socket.close_isOk hos c._server w
  cases hs1 : c._server.close os w with
  | raise m s2 w2 => simp [hs1, Result.isOk] at hs
  | ok a s2 w2 =>
    have hc := Socket.close_isOk hos c._client w2
    cases hc1 : c._client.close os w2 with
    | raise m s3 w3 => simp [hc1, Result.isOk] at hc
    | ok b s3 w3 => simp [Result.andThen, hc1, Result.isOk]

theorem Chat.on_error_ok {os : OS} {i : Fin 5} {c c1 : Chat} {w w1 : World}
    (h : c.on_error os i w = .ok () c1 w1) :
    c1._pollables = Function.update c._pollables i { c._pollables i with fd := -1 } ∧
    c1._server._fd < 0 ∧ c1._client._fd < 0 ∧ c1._quit = true ∧
    w1.zeroReads = w.zeroReads ∧ (c._server._fd < 0 → c1._server = c._server) := by
  unfold Chat.on_error at h
  have hq := Chat.quit_ok h
  exact ⟨hq.1, hq.2.1, hq.2.2.1, hq.2.2.2.1, hq.2.2.2.2.1, hq.2.2.2.2.2⟩

theorem Chat.on_error_isOk {os : OS} (hos : os.NoFailure) (i : Fin 5) (c : Chat) (w : World) :
    (c.on_error os i w).isOk = true :=
  Chat.quit_isOk hos _ w

/-! ## Chat: outcomes of the handlers -/

theorem Socket.send_ok {os : OS} {b : Bytes} {s s1 : Socket} {w w1 : World}
    (h : s.send os b w = .ok () s1 w1) :
    s1 = s ∧ w1 = w.call (.sysSend s._fd b (os.sendRc w.tick)) := by
  unfold Socket.send at h
  by_cases hrc : os.sendRc w.tick < 0
  · simp [hrc] at h
  · simp [hrc] at h
    exact ⟨h.1.symm, h.2.symm⟩

theorem Chat.on_stdin_ok {os : OS} {i : Fin 5} {c c1 : Chat} {w w1 : World}
    (h : c.on_stdin os i w = .ok () c1 w1) :
    c1 = c ∧ w1.zeroReads = w.zeroReads := by
  unfold Chat.on_stdin at h
  by_cases h1 : (c._pollables i).fd < 0
  · simp [h1] at h
    exact ⟨h.1.symm, by rw [h.2]⟩
  · by_cases h2 : (c._pollables i).revents &&& POLLIN ≠ 0
    · by_cases h3 : os.readRc w.tick < 0
      · simp [h1, h2, h3] at h
      · by_cases h4 : c._client.fd ≥ 0
        · cases hs : c._client.send os (List.take (os.readRc w.tick).toNat (os.readBuf w.tick))
              (w.call (.sysRead STDIN_FILENO (os.readRc w.tick))) with
          | raise m s2 w2 => simp [h1, h2, h3, h4, Chat.withClient, hs] at h
          | ok a s2 w2 =>
            simp [h1, h2, h3, h4, Chat.withClient, hs] at h
            have hsend := Socket.send_ok hs
            obtain ⟨hc1, hw1⟩ := h
            subst hc1; subst hw1
            rw [hsend.1, hsend.2]
            refine ⟨rfl, ?_⟩
            simp [World.zeroReads_call, Event.isZeroRecv]
        · simp [h1, h2, h3, h4] at h
          obtain ⟨hc1, hw1⟩ := h
          subst hc1; subst hw1
          refine ⟨rfl, ?_⟩
          simp [World.zeroReads_call, Event.isZeroRecv]
    · simp [h1, h2] at h
      exact ⟨h.1.symm, by rw [h.2]⟩

theorem Chat.on_stdout_ok {os : OS} {i : Fin 5} {c c1 : Chat} {w w1 : World}
    (h : c.on_stdout os i w = .ok () c1 w1) : c1 = c ∧ w1 = w := by
  unfold Chat.on_stdout at h
  simp at h
  exact ⟨h.1.symm, h.2.symm⟩

theorem Chat.on_stderr_ok {os : OS} {i : Fin 5} {c c1 : Chat} {w w1 : World}
    (h : c.on_stderr os i w = .ok () c1 w1) : c1 = c ∧ w1 = w := by
  unfold Chat.on_stderr at h
  simp at h
  exact ⟨h.1.symm, h.2.symm⟩

theorem Socket.reset_ok {os : OS} {d : Int} {s s1 : Socket} {w w1 : World}
    (h : s.reset os d w = .ok () s1 w1) :
    s1._fd = d ∧ w1.zeroReads = w.zeroReads := by
  unfold Socket.reset at h
  cases hc : s.close os w with
  | raise m s2 w2 => simp [hc] at h
  | ok a s2 w2 =>
    simp [hc] at h
    obtain ⟨hs, hw⟩ := h
    subst hs; subst hw
    exact ⟨rfl, (Socket.close_ok hc).2.2⟩

theorem Chat.withServer_accept_ok {os : OS} {c c1 : Chat} {w w1 : World} {fd : Int}
    (h : c.withServer (Socket.accept os) w = .ok fd c1 w1) :
    c1 = c ∧ 0 ≤ fd ∧ fd = os.acceptRc w.tick ∧ w1 = w.call (.sysAccept c._server._fd fd) := by
  unfold Chat.withServer Socket.accept at h
  by_cases hrc : os.acceptRc w.tick < 0
  · simp [hrc] at h
  · simp [hrc] at h
    obtain ⟨hfd, hc, hw⟩ := h
    subst hfd; subst hc; subst hw
    exact ⟨rfl, not_lt.mp hrc, rfl, rfl⟩

theorem Chat.on_server_tail_ok {os : OS} {i : Fin 5} {c c1 : Chat} {w w1 : World}
    (h : c.on_server_tail os i w = .ok () c1 w1) :
    (c._server._fd < 0 ∧
      c1._pollables = Function.update c._pollables i { c._pollables i with fd := -1 } ∧
      c1._server = c._server ∧ c1._client._fd < 0 ∧ c1._quit = true ∧
      w1.zeroReads = w.zeroReads) ∨
    (0 ≤ c._server._fd ∧ c1 = c ∧ w1 = w) := by
  unfold Chat.on_server_tail at h
  by_cases hs : c._server._fd < 0
  · left
    simp only [Socket.fd, hs, if_true] at h
    have hq := Chat.quit_ok h
    exact ⟨hs, hq.1, hq.2.2.2.2.2 hs, hq.2.2.1, hq.2.2.2.1, hq.2.2.2.2.1⟩
  · right
    simp [Socket.fd, hs] at h
    exact ⟨not_lt.mp hs, h.1.symm, h.2.symm⟩

theorem Chat.on_client_tail_ok {os : OS} {i : Fin 5} {c c1 : Chat} {w w1 : World}
    (h : c.on_client_tail os i w = .ok () c1 w1) :
    (c._client._fd < 0 ∧
      c1._pollables = Function.update c._pollables i { c._pollables i with fd := -1 } ∧
      c1._server._fd < 0 ∧ c1._client._fd < 0 ∧ c1._quit = true ∧
      w1.zeroReads = w.zeroReads) ∨
    (0 ≤ c._client._fd ∧ c1 = c ∧ w1 = w) := by
  unfold Chat.on_client_tail at h
  by_cases hs : c._client._fd < 0
  · left
    simp only [Socket.fd, hs, if_true] at h
    have hq := Chat.quit_ok h
    exact ⟨hs, hq.1, hq.2.1, hq.2.2.1, hq.2.2.2.1, hq.2.2.2.2.1⟩
  · right
    simp [Socket.fd, hs] at h
    exact ⟨not_lt.mp hs, h.1.symm, h.2.symm⟩

theorem Chat.on_server_ok {os : OS} {c c1 : Chat} {w w1 : World}
    (h : c.on_server os SERVER_INDEX w = .ok () c1 w1) :
    (c1._pollables SERVER_INDEX).revents = (c._pollables SERVER_INDEX).revents ∧
    w1.zeroReads = w.zeroReads ∧ (c.Mid → c1.Mid) := by
  unfold Chat.on_server at h
  by_cases h1 : (c._pollables SERVER_INDEX).fd < 0
  · simp [h1] at h
    obtain ⟨hc, hw⟩ := h
    subst hc; subst hw
    exact ⟨rfl, rfl, id⟩
  · by_cases h2 : (c._pollables SERVER_INDEX).revents &&& POLLIN ≠ 0
    · rw [if_neg h1, if_pos h2, Result.andThen_eq_ok] at h
      obtain ⟨fd, c2, w2, hacc, hk⟩ := h
      obtain ⟨hc2, hfd, -, hw2⟩ := Chat.withServer_accept_ok hacc
      subst hc2
      have hz2 : w2.zeroReads = w.zeroReads := by
        rw [hw2]; simp [World.zeroReads_call, Event.isZeroRecv]
      by_cases h3 : c2._client.fd ≥ 0
      · rw [if_pos h3] at hk
        by_cases h4 : os.closeRc w2.tick < 0
        · simp [h4] at hk
        · simp [h4] at hk
          obtain ⟨hc, hw⟩ := hk
          subst hc; subst hw
          refine ⟨rfl, ?_, id⟩
          simp [World.zeroReads_call, Event.isZeroRecv, hz2]
      · rw [if_neg h3, Result.andThen_eq_ok] at hk
        obtain ⟨u, c3, w3, hres, hk⟩ := hk
        unfold Chat.withClient at hres
        cases hr : c2._client.reset os fd w2 with
        | raise m s4 w4 => simp [hr] at hres
        | ok a s4 w4 =>
          simp [hr] at hres
          obtain ⟨hc3, hw3⟩ := hres
          subst hc3; subst hw3
          obtain ⟨hs4, hz4⟩ := Socket.reset_ok hr
          rcases Chat.on_server_tail_ok hk with ⟨hs, hp, hsv, hcl, -, hz⟩ | ⟨hs, hc, hw⟩
          · refine ⟨?_, ?_, ?_⟩
            · rw [hp]
              simp [Chat.setPollable, SERVER_INDEX, CLIENT_INDEX]
            · rw [hz, hz4, hz2]
            · intro _
              constructor
              · rw [hp]
                simp [Chat.setPollable, SERVER_INDEX, CLIENT_INDEX, Socket.fd, hs4]
                intro hneg; omega
              · intro _
                rw [Socket.fd, hsv]
                exact hs
          · subst hc; subst hw
            refine ⟨?_, ?_, ?_⟩
            · simp [Chat.setPollable, SERVER_INDEX, CLIENT_INDEX]
            · rw [hz4, hz2]
            · intro hmid
              constructor
              · simp [Chat.setPollable, SERVER_INDEX, CLIENT_INDEX, Socket.fd, hs4]
                intro hneg; omega
              · have := hmid.2
                simpa [Chat.setPollable, SERVER_INDEX, CLIENT_INDEX, Socket.fd] using this
    · rw [if_neg h1, if_neg h2] at h
      rcases Chat.on_server_tail_ok h with ⟨hs, hp, hsv, hcl, -, hz⟩ | ⟨hs, hc, hw⟩
      · refine ⟨?_, hz, ?_⟩
        · rw [hp]; simp
        · intro hmid
          constructor
          · rw [hp]
            have := hmid.1
            simp [SERVER_INDEX, CLIENT_INDEX, Socket.fd] at this ⊢
            intro hneg
            exact ⟨(this hneg).1, hcl⟩
          · intro _
            rw [Socket.fd, hsv]
            exact hs
      · subst hc; subst hw
        exact ⟨rfl, rfl, id⟩

theorem Socket.recv_ok {os : OS} {str b : Bytes} {s s1 : Socket} {w w1 : World}
    (h : s.recv os str w = .ok b s1 w1) :
    (s1._fd < 0 ∧ os.recvRc w.tick = 0) ∨ (s1 = s ∧ w1.zeroReads = w.zeroReads) := by
  unfold Socket.recv at h
  by_cases h1 : os.recvRc w.tick < 0
  · simp [h1] at h
  · by_cases h2 : os.recvRc w.tick = 0
    · left
      rw [h2] at h
      cases hc : s.close os (w.call (.sysRecv s._fd 0)) with
      | raise m s2 w2 => simp [hc] at h
      | ok a s2 w2 =>
        simp [hc] at h
        obtain ⟨-, hs, -⟩ := h
        subst hs
        exact ⟨(Socket.close_ok hc).1, h2⟩
    · right
      simp [h1, h2] at h
      obtain ⟨-, hs, hw⟩ := h
      subst hs; subst hw
      refine ⟨rfl, ?_⟩
      simp [World.zeroReads_call, Event.isZeroRecv, h2]

theorem Chat.on_client_ok {os : OS} {c c1 : Chat} {w w1 : World}
    (h : c.on_client os CLIENT_INDEX w = .ok () c1 w1) :
    (c1._pollables CLIENT_INDEX).revents = (c._pollables CLIENT_INDEX).revents ∧
    (c.Mid → c1.Sync) ∧
    (w1.zeroReads ≠ w.zeroReads →
      (c1._pollables CLIENT_INDEX).fd = -1 ∧ c1._quit = true) := by
  have tailCase : ∀ (c2 : Chat) (w2 : World),
      c2._pollables = c._pollables → c2._server = c._server →
      (0 ≤ c2._client._fd → c2 = c ∧ w2.zeroReads = w.zeroReads) →
      ¬ (c._pollables CLIENT_INDEX).fd < 0 →
      c2.on_client_tail os CLIENT_INDEX w2 = .ok () c1 w1 →
      (c1._pollables CLIENT_INDEX).revents = (c._pollables CLIENT_INDEX).revents ∧
      (c.Mid → c1.Sync) ∧
      (w1.zeroReads ≠ w.zeroReads →
        (c1._pollables CLIENT_INDEX).fd = -1 ∧ c1._quit = true) := by
    intro c2 w2 hp hsv hsame h1 ht
    rcases Chat.on_client_tail_ok ht with ⟨hs, hp1, hsv1, hcl1, hq1, -⟩ | ⟨hs, hc, hw⟩
    · refine ⟨?_, ?_, ?_⟩
      · rw [hp1, hp]; simp
      · intro _
        refine ⟨?_, ?_, ?_⟩
        · intro _; rw [hp1]; simp
        · rw [hp1]; simp [Socket.fd, hcl1]
        · intro _; exact hsv1
      · intro _
        refine ⟨?_, hq1⟩
        rw [hp1]; simp
    · subst hc; subst hw
      obtain ⟨hc, hz⟩ := hsame hs
      subst hc
      refine ⟨rfl, ?_, fun hne => absurd hz hne⟩
      intro hmid
      refine ⟨fun hneg => absurd hneg h1, ?_, hmid.2⟩
      constructor
      · intro heq; rw [heq] at h1; exact absurd (by decide) h1
      · intro hneg; rw [Socket.fd] at hneg; omega
  unfold Chat.on_client at h
  by_cases h1 : (c._pollables CLIENT_INDEX).fd < 0
  · rw [if_pos h1] at h
    simp at h
    obtain ⟨hc, hw⟩ := h
    subst hc; subst hw
    refine ⟨rfl, ?_, fun hne => absurd rfl hne⟩
    intro hmid
    obtain ⟨hm1, hm2⟩ := hmid
    obtain ⟨hfd, hcl⟩ := hm1 h1
    exact ⟨fun _ => hfd, ⟨fun _ => hcl, fun _ => hfd⟩, hm2⟩
  · by_cases h2 : (c._pollables CLIENT_INDEX).revents &&& POLLIN ≠ 0
    · rw [if_neg h1, if_pos h2, Result.andThen_eq_ok] at h
      obtain ⟨buffer, c2, w2, hrecv, hk⟩ := h
      by_cases h3 : c._client.fd ≥ 0
      · rw [if_pos h3] at hrecv
        unfold Chat.withClient at hrecv
        cases hr : c._client.recv os [] w with
        | raise m s4 w4 => simp [hr] at hrecv
        | ok a s4 w4 =>
          simp [hr] at hrecv
          obtain ⟨-, hc2, hw2⟩ := hrecv
          refine tailCase c2 _ (by rw [← hc2]) (by rw [← hc2]) ?_ h1 hk
          intro hnn
          rcases Socket.recv_ok hr with ⟨hneg, -⟩ | ⟨hs, hz⟩
          · rw [← hc2] at hnn; simp at hnn; omega
          · subst hs
            refine ⟨hc2.symm, ?_⟩
            rw [World.zeroReads_emit_cout, ← hw2, hz]
      · rw [if_neg h3] at hrecv
        simp at hrecv
        obtain ⟨-, hc2, hw2⟩ := hrecv
        refine tailCase c2 _ (by rw [← hc2]) (by rw [← hc2]) ?_ h1 hk
        intro _
        exact ⟨hc2.symm, by rw [World.zeroReads_emit_cout, ← hw2]⟩
    · rw [if_neg h1, if_neg h2] at h
      exact tailCase c w rfl rfl (fun _ => ⟨rfl, rfl⟩) h1 h

/-! ## Chat: one slot of the dispatch loop -/

theorem Chat.index_cases (index : Fin 5) :
    index = STDIN_INDEX ∨ index = STDOUT_INDEX ∨ index = STDERR_INDEX ∨
    index = SERVER_INDEX ∨ index = CLIENT_INDEX := by
  fin_cases index <;> simp [STDIN_INDEX, STDOUT_INDEX, STDERR_INDEX, SERVER_INDEX, CLIENT_INDEX]

theorem Chat.handler_ok {os : OS} {index : Fin 5} {c c1 : Chat} {w w1 : World}
    (h : c.handler os index w = .ok () c1 w1) :
    (c1._pollables index).revents = (c._pollables index).revents ∧
    (index ≠ CLIENT_INDEX → w1.zeroReads = w.zeroReads ∧ (c.Mid → c1.Mid)) ∧
    (index = CLIENT_INDEX →
      (c.Mid → c1.Sync) ∧
      (w1.zeroReads ≠ w.zeroReads →
        (c1._pollables CLIENT_INDEX).fd = -1 ∧ c1._quit = true)) := by
  rcases Chat.index_cases index with hi | hi | hi | hi | hi <;> subst hi
  · have h0 : c.on_stdin os STDIN_INDEX w = .ok () c1 w1 := by
      simpa [Chat.handler] using h
    obtain ⟨hc, hz⟩ := Chat.on_stdin_ok h0
    subst hc
    exact ⟨rfl, fun _ => ⟨hz, id⟩, fun hi => absurd hi (by decide)⟩
  · have h0 : c.on_stdout os STDOUT_INDEX w = .ok () c1 w1 := by
      simpa [Chat.handler, STDIN_INDEX, STDOUT_INDEX] using h
    obtain ⟨hc, hw⟩ := Chat.on_stdout_ok h0
    subst hc; subst hw
    exact ⟨rfl, fun _ => ⟨rfl, id⟩, fun hi => absurd hi (by decide)⟩
  · have h0 : c.on_stderr os STDERR_INDEX w = .ok () c1 w1 := by
      simpa [Chat.handler, STDIN_INDEX, STDOUT_INDEX, STDERR_INDEX] using h
    obtain ⟨hc, hw⟩ := Chat.on_stderr_ok h0
    subst hc; subst hw
    exact ⟨rfl, fun _ => ⟨rfl, id⟩, fun hi => absurd hi (by decide)⟩
  · have h0 : c.on_server os SERVER_INDEX w = .ok () c1 w1 := by
      simpa [Chat.handler, STDIN_INDEX, STDOUT_INDEX, STDERR_INDEX, SERVER_INDEX] using h
    obtain ⟨hr, hz, hmid⟩ := Chat.on_server_ok h0
    exact ⟨hr, fun _ => ⟨hz, hmid⟩, fun hi => absurd hi (by decide)⟩
  · have h0 : c.on_client os CLIENT_INDEX w = .ok () c1 w1 := by
      simpa [Chat.handler, STDIN_INDEX, STDOUT_INDEX, STDERR_INDEX, SERVER_INDEX,
        CLIENT_INDEX] using h
    obtain ⟨hr, hsync, hz⟩ := Chat.on_client_ok h0
    exact ⟨hr, fun hi => absurd rfl hi, fun _ => ⟨hsync, hz⟩⟩

theorem Chat.on_error_mid {os : OS} {i : Fin 5} {c c1 : Chat} {w w1 : World}
    (h : c.on_error os i w = .ok () c1 w1) :
    (c.Mid → c1.Mid) ∧ (i = CLIENT_INDEX → c1.Sync) ∧
    ((c._pollables CLIENT_INDEX).fd = -1 → (c1._pollables CLIENT_INDEX).fd = -1) := by
  obtain ⟨hp, hsv, hcl, -, -, -⟩ := Chat.on_error_ok h
  refine ⟨?_, ?_, ?_⟩
  · intro hmid
    refine ⟨?_, fun _ => hsv⟩
    intro hneg
    refine ⟨?_, hcl⟩
    rw [hp] at hneg ⊢
    by_cases hi : CLIENT_INDEX = i
    · subst hi; simp
    · rw [Function.update_noteq hi] at hneg ⊢
      exact (hmid.1 hneg).1
  · intro hi
    subst hi
    refine ⟨fun _ => by rw [hp]; simp, ?_, fun _ => hsv⟩
    rw [hp]
    simp [Socket.fd, hcl]
  · intro hfd
    rw [hp]
    by_cases hi : CLIENT_INDEX = i
    · subst hi; simp
    · rw [Function.update_noteq hi]
      exact hfd

theorem Chat.dispatch_ok {os : OS} {index : Fin 5} {c c1 : Chat} {w w1 : World}
    (h : c.dispatch os index w = .ok () c1 w1) :
    (index ≠ CLIENT_INDEX → w1.zeroReads = w.zeroReads ∧ (c.Mid → c1.Mid)) ∧
    (index = CLIENT_INDEX →
      (c.Mid → c1.Sync) ∧
      (w1.zeroReads ≠ w.zeroReads →
        (c1._pollables CLIENT_INDEX).fd = -1 ∧ c1._quit = true)) := by
  unfold Chat.dispatch at h
  rw [Result.andThen_eq_ok] at h
  obtain ⟨u, c2, w2, hh, hk⟩ := h
  obtain ⟨-, hlow, hcli⟩ := Chat.handler_ok hh
  by_cases herr : (c2._pollables index).revents &&& (POLLHUP ||| POLLERR) ≠ 0
  · rw [if_pos herr] at hk
    obtain ⟨-, -, -, hq, hz, -⟩ := Chat.on_error_ok hk
    obtain ⟨hmid, hsync, hkeep⟩ := Chat.on_error_mid hk
    refine ⟨?_, ?_⟩
    · intro hi
      obtain ⟨hz2, hm2⟩ := hlow hi
      exact ⟨by rw [hz, hz2], fun hm => hmid (hm2 hm)⟩
    · intro hi
      obtain ⟨hs2, hz2⟩ := hcli hi
      refine ⟨fun _ => hsync hi, ?_⟩
      intro hne
      rw [hz] at hne
      exact ⟨hkeep (hz2 hne).1, hq⟩
  · rw [if_neg herr] at hk
    simp at hk
    obtain ⟨hc, hw⟩ := hk
    subst hc; subst hw
    exact ⟨hlow, hcli⟩

/-! ## Chat: one iteration of the loop -/

theorem Chat.dispatch_all_ok {os : OS} {c c1 : Chat} {w w1 : World}
    (h : c.dispatch_all os w = .ok () c1 w1) :
    (c.Mid → c1.Sync) ∧
    (w1.zeroReads ≠ w.zeroReads →
      (c1._pollables CLIENT_INDEX).fd = -1 ∧ c1._quit = true) := by
  unfold Chat.dispatch_all at h
  simp only [Chat.dispatch_from] at h
  rw [Result.andThen_eq_ok] at h
  obtain ⟨_, ca, wa, h0, h⟩ := h
  rw [Result.andThen_eq_ok] at h
  obtain ⟨_, cb, wb, h1, h⟩ := h
  rw [Result.andThen_eq_ok] at h
  obtain ⟨_, cc, wc, h2, h⟩ := h
  rw [Result.andThen_eq_ok] at h
  obtain ⟨_, cd, wd, h3, h⟩ := h
  rw [Result.andThen_eq_ok] at h
  obtain ⟨_, ce, we, h4, h⟩ := h
  simp at h
  obtain ⟨hc, hw⟩ := h
  subst hc; subst hw
  obtain ⟨hz0, hm0⟩ := (Chat.dispatch_ok h0).1 (by decide)
  obtain ⟨hz1, hm1⟩ := (Chat.dispatch_ok h1).1 (by decide)
  obtain ⟨hz2, hm2⟩ := (Chat.dispatch_ok h2).1 (by decide)
  obtain ⟨hz3, hm3⟩ := (Chat.dispatch_ok h3).1 (by decide)
  obtain ⟨hs4, hz4⟩ := (Chat.dispatch_ok h4).2 rfl
  refine ⟨fun hm => hs4 (hm3 (hm2 (hm1 (hm0 hm)))), ?_⟩
  intro hne
  apply hz4
  rw [hz3, hz2, hz1, hz0]
  exact hne

theorem Chat.sync_mid {c : Chat} (h : c.Sync) : c.Mid :=
  ⟨fun hneg => ⟨h.1 hneg, h.2.1.mp (h.1 hneg)⟩, h.2.2⟩

theorem Chat.poll_frame (os : OS) (c : Chat) (w : World) :
    (∀ i, ((c.poll os w).2.1._pollables i).fd = (c._pollables i).fd ∧
      ((c.poll os w).2.1._pollables i).events = (c._pollables i).events) ∧
    (c.poll os w).2.1._server = c._server ∧ (c.poll os w).2.1._client = c._client ∧
    (c.poll os w).2.1._quit = c._quit ∧
    (c.poll os w).2.2 = w.call (.sysPoll (os.pollRc w.tick)) ∧
    (c.poll os w).1 = os.pollRc w.tick :=
  ⟨fun _ => ⟨rfl, rfl⟩, rfl, rfl, rfl, rfl, rfl⟩

theorem Chat.poll_sync (os : OS) (c : Chat) (w : World) (h : c.Sync) :
    (c.poll os w).2.1.Sync := h

theorem Chat.poll_zeroReads (os : OS) (c : Chat) (w : World) :
    (c.poll os w).2.2.zeroReads = w.zeroReads := by
  simp [Chat.poll, World.zeroReads_call, Event.isZeroRecv]

theorem Chat.loop_body_ok {os : OS} {c c1 : Chat} {w w1 : World}
    (h : c.loop_body os w = .ok () c1 w1) :
    (c.Sync → c1.Sync) ∧
    (w1.zeroReads ≠ w.zeroReads →
      (c1._pollables CLIENT_INDEX).fd = -1 ∧ c1._quit = true) := by
  unfold Chat.loop_body at h
  have hz := Chat.poll_zeroReads os c w
  have hs := Chat.poll_sync os c w
  generalize c.poll os w = p at h hz hs
  obtain ⟨ready, c2, w2⟩ := p
  simp only at h hz hs
  by_cases h1 : ready < 0
  · rw [if_pos h1] at h
    by_cases h2 : os.pollErrno w.tick = EINTR
    · rw [if_pos h2] at h
      simp at h
      obtain ⟨hc, hw⟩ := h
      subst hc; subst hw
      exact ⟨hs, fun hne => absurd hz hne⟩
    · rw [if_neg h2] at h
      simp at h
  · rw [if_neg h1] at h
    by_cases h2 : ready = 0
    · rw [if_pos h2] at h
      simp at h
      obtain ⟨hc, hw⟩ := h
      subst hc; subst hw
      exact ⟨hs, fun hne => absurd hz hne⟩
    · rw [if_neg h2] at h
      obtain ⟨hsync, hzero⟩ := Chat.dispatch_all_ok h
      refine ⟨fun hc => hsync (Chat.sync_mid (hs hc)), ?_⟩
      intro hne
      apply hzero
      rw [hz]
      exact hne

theorem Chat.iterations_sync (os : OS) (n : Nat) :
    ∀ (c : Chat) (w : World) (c1 : Chat) (w1 : World),
      c.Sync → Chat.iterations os n c w = some (c1, w1) → c1.Sync := by
  induction n with
  | zero =>
    intro c w c1 w1 hs h
    simp [Chat.iterations] at h
    rw [← h.1]
    exact hs
  | succ n ih =>
    intro c w c1 w1 hs h
    unfold Chat.iterations at h
    by_cases hq : c._quit = false
    · rw [if_pos hq] at h
      cases hb : c.loop_body os w with
      | raise m c2 w2 => simp [hb] at h
      | ok u c2 w2 =>
        simp only [hb] at h
        exact ih c2 w2 c1 w1 ((Chat.loop_body_ok hb).1 hs) h
    · rw [if_neg hq] at h
      simp at h

theorem Chat.loop_sync (os : OS) (fuel : Nat) :
    ∀ (c : Chat) (w : World) (c1 : Chat) (w1 : World),
      c.Sync → Chat.loop os fuel c w = some (.ok () c1 w1) → c1.Sync ∧ c1._quit = true := by
  induction fuel with
  | zero =>
    intro c w c1 w1 hs h
    unfold Chat.loop at h
    by_cases hq : c._quit = false
    · simp [hq] at h
    · simp [hq] at h
      obtain ⟨hc, -⟩ := h
      subst hc
      exact ⟨hs, by simpa using hq⟩
  | succ n ih =>
    intro c w c1 w1 hs h
    unfold Chat.loop at h
    by_cases hq : c._quit = false
    · rw [if_pos hq] at h
      cases hb : c.loop_body os w with
      | raise m c2 w2 => simp [hb] at h
      | ok u c2 w2 =>
        simp only [hb] at h
        exact ih c2 w2 c1 w1 ((Chat.loop_body_ok hb).1 hs) h
    · simp [hq] at h
      obtain ⟨hc, -⟩ := h
      subst hc
      exact ⟨hs, by simpa using hq⟩

theorem Chat.init_sync {os : OS} {addr port : Nat} {c0 : Chat} {w w0 : World}
    (h : Chat.new.init os addr port w = .ok () c0 w0) : c0.Sync := by
  unfold Chat.init at h
  rw [Result.andThen_eq_ok] at h
  obtain ⟨_, ca, wa, h1, h⟩ := h
  rw [Result.andThen_eq_ok] at h
  obtain ⟨_, cb, wb, h2, h⟩ := h
  rw [Result.andThen_eq_ok] at h
  obtain ⟨_, cc, wc, h3, h⟩ := h
  rw [Result.andThen_eq_ok] at h
  obtain ⟨_, cd, wd, h4, h⟩ := h
  simp at h
  obtain ⟨hc, -⟩ := h
  have e1 : ca._pollables = Chat.new._pollables ∧ ca._client = Chat.new._client ∧
      0 ≤ ca._server._fd := by
    unfold Chat.withServer Socket.create at h1
    by_cases hrc : os.socketRc w.tick ≥ 0
    · simp [Chat.new, Socket.new, hrc] at h1
      obtain ⟨hca, -⟩ := h1
      subst hca
      exact ⟨rfl, rfl, hrc⟩
    · simp [Chat.new, Socket.new, hrc] at h1
  have e2 : cb = ca := by
    unfold Chat.withServer Socket.set_reuseaddr at h2
    by_cases hrc : os.setsockoptRc wa.tick < 0
    · simp [hrc] at h2
    · simp [hrc] at h2
      exact h2.1.symm
  have e3 : cc = cb := by
    unfold Chat.withServer Socket.bind at h3
    by_cases hrc : os.bindRc wb.tick < 0
    · simp [hrc] at h3
    · simp [hrc] at h3
      exact h3.1.symm
  have e4 : cd = cc := by
    unfold Chat.withServer Socket.listen at h4
    by_cases hrc : os.listenRc wc.tick < 0
    · simp [hrc] at h4
    · simp [hrc] at h4
      exact h4.1.symm
  subst e4; subst e3; subst e2
  obtain ⟨hp, hcl, hsv⟩ := e1
  subst hc
  refine ⟨?_, ?_, ?_⟩
  · intro _
    simp [Chat.setPollable, SERVER_INDEX, CLIENT_INDEX, hp, Chat.new, STDIN_INDEX,
      STDOUT_INDEX, STDERR_INDEX]
  · simp [Chat.setPollable, SERVER_INDEX, CLIENT_INDEX, hp, hcl, Chat.new, STDIN_INDEX,
      STDOUT_INDEX, STDERR_INDEX, Socket.fd, Socket.new]
  · intro hfd
    simp [Chat.setPollable, Socket.fd] at hfd
    omega

/-! ## Chat: normal return when no system call fails -/

theorem Result.isOk_withClient {α : Type} (f : Socket → World → Result Socket α)
    (c : Chat) (w : World) : (c.withClient f w).isOk = (f c._client w).isOk := by
  unfold Chat.withClient
  cases f c._client w <;> rfl

theorem Result.isOk_withServer {α : Type} (f : Socket → World → Result Socket α)
    (c : Chat) (w : World) : (c.withServer f w).isOk = (f c._server w).isOk := by
  unfold Chat.withServer
  cases f c._server w <;> rfl

theorem Socket.reset_isOk {os : OS} (hos : os.NoFailure) (d : Int) (s : Socket) (w : World) :
    (s.reset os d w).isOk = true := by
  have h := Socket.close_isOk hos s w
  unfold Socket.reset
  cases hc : s.close os w with
  | raise m s2 w2 => simp [hc, Result.isOk] at h
  | ok a s2 w2 => simp [Result.isOk]

theorem Socket.recv_isOk {os : OS} (hos : os.NoFailure) (str : Bytes) (s : Socket)
    (w : World) : (s.recv os str w).isOk = true := by
  have hrc : ¬ os.recvRc w.tick < 0 := not_lt.mpr (hos w.tick).2.2.2.1
  unfold Socket.recv
  by_cases h2 : os.recvRc w.tick = 0
  · have h := Socket.close_isOk hos s (w.call (.sysRecv s._fd 0))
    rw [h2]
    cases hc : s.close os (w.call (.sysRecv s._fd 0)) with
    | raise m s2 w2 => simp [hc, Result.isOk] at h
    | ok a s2 w2 => simp [hc, Result.isOk]
  · simp [hrc, h2, Result.isOk]

theorem Chat.on_stdin_isOk {os : OS} (hos : os.NoFailure) (i : Fin 5) (c : Chat)
    (w : World) : (c.on_stdin os i w).isOk = true := by
  have hrd : ¬ os.readRc w.tick < 0 := not_lt.mpr (hos w.tick).2.2.2.2.1
  have hsd : ∀ t, ¬ os.sendRc t < 0 := fun t => not_lt.mpr (hos t).2.2.1
  unfold Chat.on_stdin
  by_cases h1 : (c._pollables i).fd < 0
  · rw [if_pos h1]; rfl
  · rw [if_neg h1]
    by_cases h2 : (c._pollables i).revents &&& POLLIN ≠ 0
    · rw [if_pos h2]
      simp only [hrd, if_false]
      by_cases h4 : c._client.fd ≥ 0
      · rw [if_pos h4, Result.isOk_withClient]
        simp [Socket.send, hsd, Result.isOk]
      · rw [if_neg h4]; rfl
    · rw [if_neg h2]; rfl

theorem Chat.on_server_tail_isOk {os : OS} (hos : os.NoFailure) (i : Fin 5) (c : Chat)
    (w : World) : (c.on_server_tail os i w).isOk = true := by
  unfold Chat.on_server_tail
  by_cases h : c._server.fd < 0
  · rw [if_pos h]; exact Chat.quit_isOk hos _ w
  · rw [if_neg h]; rfl

theorem Chat.on_client_tail_isOk {os : OS} (hos : os.NoFailure) (i : Fin 5) (c : Chat)
    (w : World) : (c.on_client_tail os i w).isOk = true := by
  unfold Chat.on_client_tail
  by_cases h : c._client.fd < 0
  · rw [if_pos h]; exact Chat.quit_isOk hos _ w
  · rw [if_neg h]; rfl

theorem Chat.on_server_isOk {os : OS} (hos : os.NoFailure) (i : Fin 5) (c : Chat)
    (w : World) : (c.on_server os i w).isOk = true := by
  have hacc : ¬ os.acceptRc w.tick < 0 := not_lt.mpr (hos w.tick).2.1
  have hcl : ∀ t, ¬ os.closeRc t < 0 := fun t => by rw [(hos t).1]; decide
  unfold Chat.on_server
  by_cases h1 : (c._pollables i).fd < 0
  · rw [if_pos h1]; rfl
  · rw [if_neg h1]
    by_cases h2 : (c._pollables i).revents &&& POLLIN ≠ 0
    · rw [if_pos h2]
      apply Result.andThen_isOk
      · rw [Result.isOk_withServer]
        simp [Socket.accept, hacc, Result.isOk]
      · intro fd c1 w1
        by_cases h3 : c1._client.fd ≥ 0
        · rw [if_pos h3]
          simp [hcl, Result.isOk]
        · rw [if_neg h3]
          apply Result.andThen_isOk
          · rw [Result.isOk_withClient]
            exact Socket.reset_isOk hos fd _ w1
          · intro _ c2 w2
            exact Chat.on_server_tail_isOk hos i _ w2
    · rw [if_neg h2]
      exact Chat.on_server_tail_isOk hos i c w

theorem Chat.on_client_isOk {os : OS} (hos : os.NoFailure) (i : Fin 5) (c : Chat)
    (w : World) : (c.on_client os i w).isOk = true := by
  unfold Chat.on_client
  by_cases h1 : (c._pollables i).fd < 0
  · rw [if_pos h1]; rfl
  · rw [if_neg h1]
    by_cases h2 : (c._pollables i).revents &&& POLLIN ≠ 0
    · rw [if_pos h2]
      apply Result.andThen_isOk
      · by_cases h3 : c._client.fd ≥ 0
        · rw [if_pos h3, Result.isOk_withClient]
          exact Socket.recv_isOk hos [] _ w
        · rw [if_neg h3]; rfl
      · intro buffer c1 w1
        exact Chat.on_client_tail_isOk hos i c1 _
    · rw [if_neg h2]
      exact Chat.on_client_tail_isOk hos i c w

theorem Chat.handler_isOk {os : OS} (hos : os.NoFailure) (index : Fin 5) (c : Chat)
    (w : World) : (c.handler os index w).isOk = true := by
  unfold Chat.handler
  split_ifs
  · exact Chat.on_stdin_isOk hos index c w
  · simp [Chat.on_stdout, Result.isOk]
  · simp [Chat.on_stderr, Result.isOk]
  · exact Chat.on_server_isOk hos index c w
  · exact Chat.on_client_isOk hos index c w

theorem Chat.dispatch_isOk {os : OS} (hos : os.NoFailure) (index : Fin 5) (c : Chat)
    (w : World) : (c.dispatch os index w).isOk = true := by
  unfold Chat.dispatch
  apply Result.andThen_isOk
  · exact Chat.handler_isOk hos index c w
  · intro _ c1 w1
    split_ifs
    · exact Chat.on_error_isOk hos index c1 w1
    · rfl

theorem Chat.dispatch_from_isOk {os : OS} (hos : os.NoFailure) (slots : List (Fin 5)) :
    ∀ (c : Chat) (w : World), (Chat.dispatch_from os slots c w).isOk = true := by
  induction slots with
  | nil => intro c w; rfl
  | cons index rest ih =>
    intro c w
    unfold Chat.dispatch_from
    apply Result.andThen_isOk
    · exact Chat.dispatch_isOk hos index c w
    · intro _ c1 w1
      exact ih c1 w1

theorem Chat.loop_body_isOk {os : OS} (hos : os.NoFailure) (c : Chat) (w : World) :
    (c.loop_body os w).isOk = true := by
  have hp : ¬ os.pollRc w.tick < 0 := not_lt.mpr (hos w.tick).2.2.2.2.2
  unfold Chat.loop_body Chat.poll
  simp only [hp, if_false]
  split_ifs
  · rfl
  · exact Chat.dispatch_from_isOk hos _ _ _

/-! ## Chat: the claims -/

theorem Result.eq_ok_of_isOk {σ : Type} (r : Result σ Unit) (h : r.isOk = true) :
    r = .ok () r.state r.world := by
  cases r with
  | ok a s w => rfl
  | raise m s w => simp [Result.isOk] at h

/-- C1. With `_client` owning a descriptor and the SERVER slot active and
readable, `Chat::on_server` on a pending connection (`accept` returns a
descriptor) issues `accept` on the server descriptor and then `close` on the
accepted descriptor, and nothing else; it leaves the whole `Chat` object as it
was, in particular `_client`, the CLIENT slot and `_quit`; it returns normally
exactly when that `close` does not fail, and after a successful `close` the
accepted descriptor is not open. -/
theorem Chat.on_server_rejects_second_peer (os : OS) (c : Chat) (w : World)
    (hclient : c._client.fd ≥ 0)
    (hslot : (c._pollables SERVER_INDEX).fd ≥ 0)
    (hready : (c._pollables SERVER_INDEX).revents &&& POLLIN ≠ 0)
    (hpending : 0 ≤ os.acceptRc w.tick) :
    (c.on_server os SERVER_INDEX w).state = c ∧
    (c.on_server os SERVER_INDEX w).state._client.fd = c._client.fd ∧
    (c.on_server os SERVER_INDEX w).state._pollables CLIENT_INDEX
      = c._pollables CLIENT_INDEX ∧
    (c.on_server os SERVER_INDEX w).state._quit = c._quit ∧
    (c.on_server os SERVER_INDEX w).world
      = (w.call (.sysAccept c._server.fd (os.acceptRc w.tick))).call
          (.sysClose (os.acceptRc w.tick) (os.closeRc (w.tick + 1))) ∧
    ((c.on_server os SERVER_INDEX w).isOk = true ↔ 0 ≤ os.closeRc (w.tick + 1)) ∧
    (os.closeRc (w.tick + 1) = 0 →
      os.acceptRc w.tick ∉ (c.on_server os SERVER_INDEX w).world.openFds) := by
  have h1 : ¬ (c._pollables SERVER_INDEX).fd < 0 := not_lt.mpr hslot
  have h2 : ¬ os.acceptRc w.tick < 0 := not_lt.mpr hpending
  have hw : (w.call (.sysAccept c._server._fd (os.acceptRc w.tick))).tick = w.tick + 1 := rfl
  have hstate : (c.on_server os SERVER_INDEX w).state = c := by
    unfold Chat.on_server
    rw [if_neg h1, if_pos hready]
    simp only [Chat.withServer, Socket.accept, h2, if_false, Result.andThen, hclient, if_true]
    split_ifs <;> rfl
  have hworld : (c.on_server os SERVER_INDEX w).world
      = (w.call (.sysAccept c._server.fd (os.acceptRc w.tick))).call
          (.sysClose (os.acceptRc w.tick) (os.closeRc (w.tick + 1))) := by
    unfold Chat.on_server
    rw [if_neg h1, if_pos hready]
    simp only [Chat.withServer, Socket.accept, h2, if_false, Result.andThen, hclient, if_true,
      hw]
    split_ifs <;> rfl
  refine ⟨hstate, by rw [hstate], by rw [hstate], by rw [hstate], hworld, ?_, ?_⟩
  · unfold Chat.on_server
    rw [if_neg h1, if_pos hready]
    simp only [Chat.withServer, Socket.accept, h2, if_false, Result.andThen, hclient, if_true,
      hw]
    by_cases h3 : os.closeRc (w.tick + 1) < 0
    · simp [h3, Result.isOk]
    · simp [h3, Result.isOk]; omega
  · intro hrc
    rw [hworld, hrc]
    exact World.not_mem_openFds_call_close _ _

/-- Witness of C1: the connected reactor (server 3, client 4) with the SERVER
slot readable and `accept` returning 5: descriptor 5 is accepted and closed,
and the object is unchanged. -/
theorem Chat.on_server_rejects_second_peer_witness :
    ((chatConnected.observed (fun i => if i = SERVER_INDEX then POLLIN else 0)).on_server
        osSecondPeer SERVER_INDEX world4).state._client.fd = 4 ∧
    ((chatConnected.observed (fun i => if i = SERVER_INDEX then POLLIN else 0)).on_server
        osSecondPeer SERVER_INDEX world4).world
      = (world4.call (.sysAccept 3 5)).call (.sysClose 5 0) ∧
    (5 : Int) ∉ ((chatConnected.observed (fun i => if i = SERVER_INDEX then POLLIN else 0)).on_server
        osSecondPeer SERVER_INDEX world4).world.openFds :=
  ⟨(Chat.on_server_rejects_second_peer osSecondPeer
      (chatConnected.observed (fun i => if i = SERVER_INDEX then POLLIN else 0)) world4
      (by decide) (by decide) (by decide) (by decide)).2.1,
   (Chat.on_server_rejects_second_peer osSecondPeer
      (chatConnected.observed (fun i => if i = SERVER_INDEX then POLLIN else 0)) world4
      (by decide) (by decide) (by decide) (by decide)).2.2.2.2.1,
   (Chat.on_server_rejects_second_peer osSecondPeer
      (chatConnected.observed (fun i => if i = SERVER_INDEX then POLLIN else 0)) world4
      (by decide) (by decide) (by decide) (by decide)).2.2.2.2.2.2 (by decide)⟩

/-- C7. A loop iteration whose `poll` returns a negative result with `errno`
equal to `EINTR`, or returns zero, returns normally having issued the `poll`
call and nothing else: no handler runs, both sockets, the descriptor and the
interest set of each of the five slots and `_quit` are unchanged, and with
`_quit` unset the loop goes on with its next iteration from that state. -/
theorem Chat.idle_wait_is_noop (os : OS) (c : Chat) (w : World)
    (hquit : c._quit = false)
    (hwait : (os.pollRc w.tick < 0 ∧ os.pollErrno w.tick = EINTR) ∨ os.pollRc w.tick = 0) :
    c.loop_body os w
      = .ok () (c.observed (os.pollRevents w.tick)) (w.call (.sysPoll (os.pollRc w.tick))) ∧
    (c.loop_body os w).state._server = c._server ∧
    (c.loop_body os w).state._client = c._client ∧
    (∀ i, ((c.loop_body os w).state._pollables i).fd = (c._pollables i).fd ∧
      ((c.loop_body os w).state._pollables i).events = (c._pollables i).events) ∧
    (c.loop_body os w).state._quit = false ∧
    (∀ fuel, Chat.loop os (fuel + 1) c w
      = Chat.loop os fuel (c.observed (os.pollRevents w.tick))
          (w.call (.sysPoll (os.pollRc w.tick)))) := by
  have hbody : c.loop_body os w
      = .ok () (c.observed (os.pollRevents w.tick))
          (w.call (.sysPoll (os.pollRc w.tick))) := by
    unfold Chat.loop_body Chat.poll Chat.observed
    rcases hwait with ⟨h1, h2⟩ | h1
    · simp [h1, h2]
    · simp [h1]
  refine ⟨hbody, ?_, ?_, ?_, ?_, ?_⟩
  · rw [hbody]; rfl
  · rw [hbody]; rfl
  · intro i; rw [hbody]; exact ⟨rfl, rfl⟩
  · rw [hbody]; exact hquit
  · intro fuel
    rw [Chat.loop]
    simp [hquit, hbody]

/-- Witness of C7: the listening reactor with `poll` interrupted by a signal. -/
theorem Chat.idle_wait_is_noop_witness :
    chatListening.loop_body osInterrupted world3
      = .ok () (chatListening.observed (osInterrupted.pollRevents world3.tick))
          (world3.call (.sysPoll (osInterrupted.pollRc world3.tick))) ∧
    (chatListening.loop_body osInterrupted world3).state._server = chatListening._server ∧
    (chatListening.loop_body osInterrupted world3).state._quit = false :=
  ⟨(Chat.idle_wait_is_noop osInterrupted chatListening world3 (by decide)
      (Or.inl ⟨by decide, by decide⟩)).1,
   (Chat.idle_wait_is_noop osInterrupted chatListening world3 (by decide)
      (Or.inl ⟨by decide, by decide⟩)).2.1,
   (Chat.idle_wait_is_noop osInterrupted chatListening world3 (by decide)
      (Or.inl ⟨by decide, by decide⟩)).2.2.2.2.1⟩

/-! ## Chat: what an exception leaves behind -/

theorem osClientReadable_noFailure : osClientReadable.NoFailure := by
  intro t
  simp [osClientReadable, osQuiet]

/-- C2. When an iteration of the loop returns normally and the client's
`recv` read zero bytes during it, whatever `revents` the wait left on the five
slots, the CLIENT slot's descriptor is -1 and `_quit` is set at the end of the
iteration, and the loop then returns without a further iteration.  The
iteration does return normally whenever no system call fails. -/
theorem Chat.zero_read_ends_session (os : OS) (c : Chat) (w : World) :
    (∀ c1 w1, c.loop_body os w = .ok () c1 w1 → w.zeroReads < w1.zeroReads →
      (c1._pollables CLIENT_INDEX).fd = -1 ∧ c1._quit = true ∧
      ∀ fuel, Chat.loop os fuel c1 w1 = some (.ok () c1 w1)) ∧
    (os.NoFailure → (c.loop_body os w).isOk = true) := by
  refine ⟨?_, fun hos => Chat.loop_body_isOk hos c w⟩
  intro c1 w1 h hz
  obtain ⟨hfd, hq⟩ := (Chat.loop_body_ok h).2 (Nat.ne_of_gt hz)
  refine ⟨hfd, hq, ?_⟩
  intro fuel
  unfold Chat.loop
  simp [hq]

/-- Witness of C2: the connected reactor, the CLIENT slot reported readable,
`recv` reading zero bytes: the iteration returns normally, the CLIENT slot is
off, `_quit` is set and the loop is over. -/
theorem Chat.zero_read_ends_session_witness :
    world4.zeroReads < (chatConnected.loop_body osClientReadable world4).world.zeroReads ∧
    ((chatConnected.loop_body osClientReadable world4).state._pollables CLIENT_INDEX).fd = -1 ∧
    (chatConnected.loop_body osClientReadable world4).state._quit = true ∧
    Chat.loop osClientReadable 7 (chatConnected.loop_body osClientReadable world4).state
        (chatConnected.loop_body osClientReadable world4).world
      = some (.ok () (chatConnected.loop_body osClientReadable world4).state
          (chatConnected.loop_body osClientReadable world4).world) :=
  ⟨by decide,
   ((Chat.zero_read_ends_session osClientReadable chatConnected world4).1 _ _
      (Result.eq_ok_of_isOk _
        ((Chat.zero_read_ends_session osClientReadable chatConnected world4).2
          osClientReadable_noFailure))
      (by decide)).1,
   ((Chat.zero_read_ends_session osClientReadable chatConnected world4).1 _ _
      (Result.eq_ok_of_isOk _
        ((Chat.zero_read_ends_session osClientReadable chatConnected world4).2
          osClientReadable_noFailure))
      (by decide)).2.1,
   ((Chat.zero_read_ends_session osClientReadable chatConnected world4).1 _ _
      (Result.eq_ok_of_isOk _
        ((Chat.zero_read_ends_session osClientReadable chatConnected world4).2
          osClientReadable_noFailure))
      (by decide)).2.2 7⟩

/-! ## Chat: the SERVER slot through an iteration -/

theorem Chat.handler_low_ok {os : OS} {index : Fin 5} {c c1 : Chat} {w w1 : World}
    (hi : index = STDIN_INDEX ∨ index = STDOUT_INDEX ∨ index = STDERR_INDEX)
    (h : c.handler os index w = .ok () c1 w1) : c1 = c := by
  rcases hi with hi | hi | hi <;> subst hi
  · have h0 : c.on_stdin os STDIN_INDEX w = .ok () c1 w1 := by
      simpa [Chat.handler] using h
    exact (Chat.on_stdin_ok h0).1
  · have h0 : c.on_stdout os STDOUT_INDEX w = .ok () c1 w1 := by
      simpa [Chat.handler, STDIN_INDEX, STDOUT_INDEX] using h
    exact (Chat.on_stdout_ok h0).1
  · have h0 : c.on_stderr os STDERR_INDEX w = .ok () c1 w1 := by
      simpa [Chat.handler, STDIN_INDEX, STDOUT_INDEX, STDERR_INDEX] using h
    exact (Chat.on_stderr_ok h0).1

theorem Chat.dispatch_low_server {os : OS} {index : Fin 5} {c c1 : Chat} {w w1 : World}
    (hi : index = STDIN_INDEX ∨ index = STDOUT_INDEX ∨ index = STDERR_INDEX)
    (h : c.dispatch os index w = .ok () c1 w1) (hP : c.BeforeServer) : c1.BeforeServer := by
  have hne : SERVER_INDEX ≠ index := by
    rcases hi with hi | hi | hi <;> subst hi <;> decide
  unfold Chat.dispatch at h
  rw [Result.andThen_eq_ok] at h
  obtain ⟨u, c2, w2, hh, hk⟩ := h
  have hc2 := Chat.handler_low_ok hi hh
  subst hc2
  split_ifs at hk
  · obtain ⟨hp, hsv, hcl, hq, -, -⟩ := Chat.on_error_ok hk
    refine ⟨fun hf => ?_, fun _ => ⟨hsv, hcl, ?_⟩⟩
    · rw [hq] at hf; cases hf
    · rw [hp, Function.update_noteq hne]
      cases hcq : c2._quit with
      | false => have := (hP.1 hcq); omega
      | true => exact (hP.2 hcq).2.2
  · simp at hk
    rw [← hk.1]
    exact hP

theorem Chat.on_server_server {os : OS} {c c1 : Chat} {w w1 : World}
    (h : c.on_server os SERVER_INDEX w = .ok () c1 w1) (hP : c.BeforeServer) :
    c1.AfterServer := by
  have keep : ∀ c2 : Chat, c2._quit = c._quit → c2._server = c._server →
      c2._pollables SERVER_INDEX = c._pollables SERVER_INDEX →
      0 ≤ c2._server._fd → c2.AfterServer := by
    intro c2 hq hs hp hnn
    refine ⟨fun hf => ?_, fun ht => ?_⟩
    · rw [hq] at hf
      rw [hp, hs]
      exact hP.1 hf
    · rw [hq] at ht
      have := (hP.2 ht).1
      rw [hs] at hnn
      omega
  have quitted : ∀ c2 : Chat, c2._quit = true → c2._server._fd < 0 → c2._client._fd < 0 →
      (c2._pollables SERVER_INDEX).fd = -1 → c2.AfterServer := by
    intro c2 hq hs hc hp
    refine ⟨fun hf => ?_, fun _ => ⟨hp, hs, hc⟩⟩
    rw [hq] at hf; cases hf
  unfold Chat.on_server at h
  by_cases h1 : (c._pollables SERVER_INDEX).fd < 0
  · exfalso
    cases hcq : c._quit with
    | false => have := hP.1 hcq; omega
    | true => have := (hP.2 hcq).2.2; omega
  · by_cases h2 : (c._pollables SERVER_INDEX).revents &&& POLLIN ≠ 0
    · rw [if_neg h1, if_pos h2, Result.andThen_eq_ok] at h
      obtain ⟨fd, c2, w2, hacc, hk⟩ := h
      obtain ⟨hc2, hfd, -, hw2⟩ := Chat.withServer_accept_ok hacc
      subst hc2
      by_cases h3 : c2._client.fd ≥ 0
      · rw [if_pos h3] at hk
        by_cases h4 : os.closeRc w2.tick < 0
        · simp [h4] at hk
        · simp [h4] at hk
          rw [← hk.1]
          cases hcq : c2._quit with
          | false => exact keep c2 rfl rfl rfl (hP.1 hcq).2
          | true =>
            have := (hP.2 hcq).2.1
            rw [Socket.fd] at h3
            omega
      · rw [if_neg h3, Result.andThen_eq_ok] at hk
        obtain ⟨u, c3, w3, hres, hk⟩ := hk
        unfold Chat.withClient at hres
        cases hr : c2._client.reset os fd w2 with
        | raise m s4 w4 => simp [hr] at hres
        | ok a s4 w4 =>
          simp [hr] at hres
          obtain ⟨hc3, hw3⟩ := hres
          subst hc3; subst hw3
          rcases Chat.on_server_tail_ok hk with ⟨hs, hp, hsv, hcl, hq, -⟩ | ⟨hs, hc, hw⟩
          · refine quitted c1 hq ?_ hcl ?_
            · rw [hsv]; exact hs
            · rw [hp]; simp
          · subst hc
            exact keep _ rfl rfl (by simp [Chat.setPollable, SERVER_INDEX, CLIENT_INDEX]) hs
    · rw [if_neg h1, if_neg h2] at h
      rcases Chat.on_server_tail_ok h with ⟨hs, hp, hsv, hcl, hq, -⟩ | ⟨hs, hc, hw⟩
      · refine quitted c1 hq ?_ hcl ?_
        · rw [hsv]; exact hs
        · rw [hp]; simp
      · subst hc
        exact keep _ rfl rfl rfl hs

theorem Chat.dispatch_server_server {os : OS} {c c1 : Chat} {w w1 : World}
    (h : c.dispatch os SERVER_INDEX w = .ok () c1 w1) (hP : c.BeforeServer) :
    c1.AfterServer := by
  unfold Chat.dispatch at h
  rw [Result.andThen_eq_ok] at h
  obtain ⟨u, c2, w2, hh, hk⟩ := h
  have h0 : c.on_server os SERVER_INDEX w = .ok () c2 w2 := by
    simpa [Chat.handler, STDIN_INDEX, STDOUT_INDEX, STDERR_INDEX, SERVER_INDEX] using hh
  have hQ := Chat.on_server_server h0 hP
  split_ifs at hk
  · obtain ⟨hp, hsv, hcl, hq, -, -⟩ := Chat.on_error_ok hk
    refine ⟨fun hf => ?_, fun _ => ⟨?_, hsv, hcl⟩⟩
    · rw [hq] at hf; cases hf
    · rw [hp]; simp
  · simp at hk
    rw [← hk.1]
    exact hQ

theorem Chat.on_client_server {os : OS} {c c1 : Chat} {w w1 : World}
    (h : c.on_client os CLIENT_INDEX w = .ok () c1 w1) :
    c1._pollables SERVER_INDEX = c._pollables SERVER_INDEX ∧
    ((c1._server = c._server ∧ c1._quit = c._quit) ∨
      (c1._server._fd < 0 ∧ c1._quit = true)) := by
  have tailCase : ∀ (c2 : Chat) (w2 : World),
      c2._pollables = c._pollables → c2._server = c._server → c2._quit = c._quit →
      c2.on_client_tail os CLIENT_INDEX w2 = .ok () c1 w1 →
      c1._pollables SERVER_INDEX = c._pollables SERVER_INDEX ∧
      ((c1._server = c._server ∧ c1._quit = c._quit) ∨
        (c1._server._fd < 0 ∧ c1._quit = true)) := by
    intro c2 w2 hp hsv hq ht
    rcases Chat.on_client_tail_ok ht with ⟨-, hp1, hsv1, -, hq1, -⟩ | ⟨-, hc, -⟩
    · refine ⟨?_, Or.inr ⟨hsv1, hq1⟩⟩
      rw [hp1, hp]
      simp [SERVER_INDEX, CLIENT_INDEX]
    · subst hc
      exact ⟨by rw [hp], Or.inl ⟨hsv, hq⟩⟩
  unfold Chat.on_client at h
  by_cases h1 : (c._pollables CLIENT_INDEX).fd < 0
  · rw [if_pos h1] at h
    simp at h
    rw [← h.1]
    exact ⟨rfl, Or.inl ⟨rfl, rfl⟩⟩
  · by_cases h2 : (c._pollables CLIENT_INDEX).revents &&& POLLIN ≠ 0
    · rw [if_neg h1, if_pos h2, Result.andThen_eq_ok] at h
      obtain ⟨buffer, c2, w2, hrecv, hk⟩ := h
      by_cases h3 : c._client.fd ≥ 0
      · rw [if_pos h3] at hrecv
        unfold Chat.withClient at hrecv
        cases hr : c._client.recv os [] w with
        | raise m s4 w4 => simp [hr] at hrecv
        | ok a s4 w4 =>
          simp [hr] at hrecv
          obtain ⟨-, hc2, -⟩ := hrecv
          exact tailCase c2 _ (by rw [← hc2]) (by rw [← hc2]) (by rw [← hc2]) hk
      · rw [if_neg h3] at hrecv
        simp at hrecv
        obtain ⟨-, hc2, -⟩ := hrecv
        exact tailCase c2 _ (by rw [← hc2]) (by rw [← hc2]) (by rw [← hc2]) hk
    · rw [if_neg h1, if_neg h2] at h
      exact tailCase c w rfl rfl rfl h

theorem Chat.dispatch_client_server {os : OS} {c c1 : Chat} {w w1 : World}
    (h : c.dispatch os CLIENT_INDEX w = .ok () c1 w1) :
    c1._pollables SERVER_INDEX = c._pollables SERVER_INDEX ∧
    ((c1._server = c._server ∧ c1._quit = c._quit) ∨
      (c1._server._fd < 0 ∧ c1._quit = true)) := by
  unfold Chat.dispatch at h
  rw [Result.andThen_eq_ok] at h
  obtain ⟨u, c2, w2, hh, hk⟩ := h
  have h0 : c.on_client os CLIENT_INDEX w = .ok () c2 w2 := by
    simpa [Chat.handler, STDIN_INDEX, STDOUT_INDEX, STDERR_INDEX, SERVER_INDEX,
      CLIENT_INDEX] using hh
  obtain ⟨hp2, halt⟩ := Chat.on_client_server h0
  split_ifs at hk
  · obtain ⟨hp, hsv, -, hq, -, -⟩ := Chat.on_error_ok hk
    refine ⟨?_, Or.inr ⟨hsv, hq⟩⟩
    rw [hp, ← hp2]
    simp [SERVER_INDEX, CLIENT_INDEX]
  · simp at hk
    rw [← hk.1]
    exact ⟨hp2, halt⟩

theorem Chat.dispatch_all_split {os : OS} {c c1 : Chat} {w w1 : World}
    (h : c.dispatch_all os w = .ok () c1 w1) :
    ∃ c2 w2, Chat.dispatch_from os [0, 1, 2, 3] c w = .ok () c2 w2 ∧
      c2.dispatch os CLIENT_INDEX w2 = .ok () c1 w1 := by
  unfold Chat.dispatch_all at h
  simp only [Chat.dispatch_from] at h ⊢
  rw [Result.andThen_eq_ok] at h
  obtain ⟨_, ca, wa, h0, h⟩ := h
  rw [Result.andThen_eq_ok] at h
  obtain ⟨_, cb, wb, h1, h⟩ := h
  rw [Result.andThen_eq_ok] at h
  obtain ⟨_, cc, wc, h2, h⟩ := h
  rw [Result.andThen_eq_ok] at h
  obtain ⟨_, cd, wd, h3, h⟩ := h
  rw [Result.andThen_eq_ok] at h
  obtain ⟨_, ce, we, h4, h⟩ := h
  simp at h
  obtain ⟨hc, hw⟩ := h
  subst hc; subst hw
  refine ⟨cd, wd, ?_, h4⟩
  simp [h0, h1, h2, h3, Result.andThen]

theorem Chat.before_client_server {os : OS} {c c2 : Chat} {w w2 : World}
    (h : Chat.dispatch_from os [0, 1, 2, 3] c w = .ok () c2 w2) (hP : c.BeforeServer) :
    c2.AfterServer := by
  simp only [Chat.dispatch_from] at h
  rw [Result.andThen_eq_ok] at h
  obtain ⟨_, ca, wa, h0, h⟩ := h
  rw [Result.andThen_eq_ok] at h
  obtain ⟨_, cb, wb, h1, h⟩ := h
  rw [Result.andThen_eq_ok] at h
  obtain ⟨_, cc, wc, h2, h⟩ := h
  rw [Result.andThen_eq_ok] at h
  obtain ⟨_, cd, wd, h3, h⟩ := h
  simp at h
  rw [← h.1]
  have ha := Chat.dispatch_low_server (Or.inl rfl) h0 hP
  have hb := Chat.dispatch_low_server (Or.inr (Or.inl rfl)) h1 ha
  have hc := Chat.dispatch_low_server (Or.inr (Or.inr rfl)) h2 hb
  exact Chat.dispatch_server_server h3 hc

theorem Option.eq_some_getD {α : Type} (o : Option α) (d : α) (h : o.isSome = true) :
    o = some (o.getD d) := by
  cases o with
  | none => simp at h
  | some a => rfl

/-- C8, as stated, fails.  One peer connects and then closes in an orderly
way: `Chat::run` returns normally, and in its final state, which is the state
at the end of the second iteration, `_server` owns no descriptor while the
SERVER slot still holds descriptor 3. -/
theorem Chat.watch_slot_counterexample :
    ∃ c w, Chat.run osPeerCloses 0 10000 5 Chat.new world0 = some (.ok () c w) ∧
      (c._pollables SERVER_INDEX).fd = 3 ∧ c._server.fd = -1 ∧
      ¬ ((c._pollables SERVER_INDEX).fd = -1 ↔ c._server.fd < 0) := by
  have h : (Chat.run osPeerCloses 0 10000 5 Chat.new world0).map
      (fun r => (r.isOk, (r.state._pollables SERVER_INDEX).fd, r.state._server.fd))
      = some (true, 3, -1) := by decide!
  cases hr : Chat.run osPeerCloses 0 10000 5 Chat.new world0 with
  | none => simp [hr] at h
  | some r =>
    cases r with
    | raise m c w => simp [hr, Result.isOk] at h
    | ok u c w =>
      simp [hr, Result.isOk, Result.state] at h
      refine ⟨c, w, rfl, h.1, h.2, ?_⟩
      rw [h.1, h.2]
      decide

theorem Chat.loop_body_running {os : OS} {c c1 : Chat} {w w1 : World}
    (h : c.loop_body os w = .ok () c1 w1) (hrun : c.Running) (hq : c._quit = false) :
    c1.Running ∧
    (¬ ((c.before_client os w).state._quit = false ∧ c1._quit = true) →
      (c1._server.fd < 0 → (c1._pollables SERVER_INDEX).fd = -1)) ∧
    ((c.before_client os w).state._quit = false ∧ c1._quit = true →
      c1._server.fd < 0 ∧ 0 ≤ (c1._pollables SERVER_INDEX).fd) := by
  have hsync := (Chat.loop_body_ok h).1 hrun.1
  have hP : (c.poll os w).2.1.BeforeServer := by
    refine ⟨fun _ => hrun.2 hq, fun ht => ?_⟩
    have : c._quit = true := ht
    rw [hq] at this; cases this
  unfold Chat.loop_body at h
  have skip : c1 = (c.poll os w).2.1 →
      c1.Running ∧
      (¬ ((c.before_client os w).state._quit = false ∧ c1._quit = true) →
        (c1._server.fd < 0 → (c1._pollables SERVER_INDEX).fd = -1)) ∧
      ((c.before_client os w).state._quit = false ∧ c1._quit = true →
        c1._server.fd < 0 ∧ 0 ≤ (c1._pollables SERVER_INDEX).fd) := by
    intro hc
    have hq1 : c1._quit = false := by rw [hc]; exact hq
    have hsv : 0 ≤ c1._server._fd := by rw [hc]; exact (hrun.2 hq).2
    refine ⟨⟨hsync, fun _ => ?_⟩, fun _ hneg => ?_, fun hx => ?_⟩
    · rw [hc]; exact hrun.2 hq
    · rw [Socket.fd] at hneg; omega
    · rw [hq1] at hx; cases hx.2
  simp only [Chat.poll] at h skip hP
  by_cases h1 : os.pollRc w.tick < 0
  · rw [if_pos h1] at h
    by_cases h2 : os.pollErrno w.tick = EINTR
    · rw [if_pos h2] at h
      simp at h
      exact skip h.1.symm
    · rw [if_neg h2] at h
      simp at h
  · rw [if_neg h1] at h
    by_cases h2 : os.pollRc w.tick = 0
    · rw [if_pos h2] at h
      simp at h
      exact skip h.1.symm
    · rw [if_neg h2] at h
      obtain ⟨c2, w2, hb, hd⟩ := Chat.dispatch_all_split h
      have hQ := Chat.before_client_server hb hP
      obtain ⟨hp3, halt⟩ := Chat.dispatch_client_server hd
      have hstate : (c.before_client os w).state = c2 := by
        simp only [Chat.before_client, Chat.poll, hb, Result.state]
      rw [hstate]
      refine ⟨⟨hsync, fun hq1 => ?_⟩, fun hnot hneg => ?_, fun hx => ?_⟩
      · rcases halt with ⟨hs, hqq⟩ | ⟨-, hqt⟩
        · rw [hqq] at hq1
          rw [hp3, hs]
          exact hQ.1 hq1
        · rw [hqt] at hq1; cases hq1
      · rw [Socket.fd] at hneg
        cases hcq : c2._quit with
        | true =>
          rw [hp3]
          exact (hQ.2 hcq).1
        | false =>
          rcases halt with ⟨hs, hqq⟩ | ⟨-, hqt⟩
          · have := (hQ.1 hcq).2
            rw [hs] at hneg
            omega
          · exact absurd ⟨hcq, hqt⟩ hnot
      · obtain ⟨hcq, hqt⟩ := hx
        rcases halt with ⟨-, hqq⟩ | ⟨hs, -⟩
        · rw [hqq, hcq] at hqt; cases hqt
        · refine ⟨hs, ?_⟩
          rw [hp3, (hQ.1 hcq).1]
          exact (hQ.1 hcq).2

theorem Chat.init_running {os : OS} {addr port : Nat} {c0 : Chat} {w w0 : World}
    (h : Chat.new.init os addr port w = .ok () c0 w0) : c0.Running ∧ c0._quit = false := by
  have hsync := Chat.init_sync h
  unfold Chat.init at h
  rw [Result.andThen_eq_ok] at h
  obtain ⟨_, ca, wa, h1, h⟩ := h
  rw [Result.andThen_eq_ok] at h
  obtain ⟨_, cb, wb, h2, h⟩ := h
  rw [Result.andThen_eq_ok] at h
  obtain ⟨_, cc, wc, h3, h⟩ := h
  rw [Result.andThen_eq_ok] at h
  obtain ⟨_, cd, wd, h4, h⟩ := h
  simp at h
  obtain ⟨hc, -⟩ := h
  have e1 : ca._quit = false ∧ 0 ≤ ca._server._fd := by
    unfold Chat.withServer Socket.create at h1
    by_cases hrc : os.socketRc w.tick ≥ 0
    · simp [Chat.new, Socket.new, hrc] at h1
      obtain ⟨hca, -⟩ := h1
      subst hca
      exact ⟨rfl, hrc⟩
    · simp [Chat.new, Socket.new, hrc] at h1
  have e2 : cb = ca := by
    unfold Chat.withServer Socket.set_reuseaddr at h2
    by_cases hrc : os.setsockoptRc wa.tick < 0
    · simp [hrc] at h2
    · simp [hrc] at h2
      exact h2.1.symm
  have e3 : cc = cb := by
    unfold Chat.withServer Socket.bind at h3
    by_cases hrc : os.bindRc wb.tick < 0
    · simp [hrc] at h3
    · simp [hrc] at h3
      exact h3.1.symm
  have e4 : cd = cc := by
    unfold Chat.withServer Socket.listen at h4
    by_cases hrc : os.listenRc wc.tick < 0
    · simp [hrc] at h4
    · simp [hrc] at h4
      exact h4.1.symm
  subst e4; subst e3; subst e2
  subst hc
  refine ⟨⟨hsync, fun _ => ⟨?_, e1.2⟩⟩, e1.1⟩
  simp [Chat.setPollable, Socket.fd]

theorem Chat.iterations_running (os : OS) (n : Nat) :
    ∀ (c : Chat) (w : World) (c1 : Chat) (w1 : World),
      c.Running → Chat.iterations os n c w = some (c1, w1) → c1.Running := by
  induction n with
  | zero =>
    intro c w c1 w1 hs h
    simp [Chat.iterations] at h
    rw [← h.1]
    exact hs
  | succ n ih =>
    intro c w c1 w1 hs h
    unfold Chat.iterations at h
    by_cases hq : c._quit = false
    · rw [if_pos hq] at h
      cases hb : c.loop_body os w with
      | raise m c2 w2 => simp [hb] at h
      | ok u c2 w2 =>
        simp only [hb] at h
        exact ih c2 w2 c1 w1 (Chat.loop_body_running hb hs hq).1 h
    · rw [if_neg hq] at h
      simp at h

theorem Chat.loop_final (os : OS) (fuel : Nat) :
    ∀ (c0 : Chat) (w0 : World) (c1 : Chat) (w1 : World),
      c0._quit = false → Chat.loop os fuel c0 w0 = some (.ok () c1 w1) →
      ∃ n c w, Chat.iterations os n c0 w0 = some (c, w) ∧ c._quit = false ∧
        c.loop_body os w = .ok () c1 w1 := by
  induction fuel with
  | zero =>
    intro c0 w0 c1 w1 hq h
    unfold Chat.loop at h
    simp [hq] at h
  | succ k ih =>
    intro c0 w0 c1 w1 hq h
    unfold Chat.loop at h
    rw [if_pos hq] at h
    cases hb : c0.loop_body os w0 with
    | raise m c2 w2 => simp [hb] at h
    | ok u c2 w2 =>
      simp only [hb] at h
      cases hq2 : c2._quit with
      | true =>
        unfold Chat.loop at h
        simp [hq2] at h
        refine ⟨0, c0, w0, rfl, hq, ?_⟩
        rw [← h.1, ← h.2]
        exact hb
      | false =>
        obtain ⟨n, c, w, hit, hcq, hbody⟩ := ih c2 w2 c1 w1 hq2 h
        refine ⟨n + 1, c, w, ?_, hcq, hbody⟩
        rw [Chat.iterations, if_pos hq]
        simp only [hb]
        exact hit

/-- C8, amended.  From the state `init` leaves, in every state reached at the
end of an iteration of the loop that returned normally (the final state when
the loop exits is one of them): the CLIENT slot's descriptor is -1 exactly
when `_client` owns no descriptor, and the SERVER slot's descriptor is -1
exactly when `_server` owns no descriptor, except at the end of an iteration
in which the shutdown was triggered while the CLIENT slot was being dispatched
(`_quit` unset when that dispatch starts and set when it ends): in that state
`_server` owns no descriptor and the SERVER slot still holds a descriptor.  In
every such state a SERVER slot holding -1 goes with a `_server` that owns
nothing, and with `_quit` unset the equivalence holds in full. -/
theorem Chat.watch_slots_follow_sockets (os : OS) (addr port : Nat) (w : World)
    (c0 : Chat) (w0 : World)
    (hinit : Chat.new.init os addr port w = .ok () c0 w0) :
    (∀ n c1 w1, Chat.iterations os n c0 w0 = some (c1, w1) →
      ((c1._pollables CLIENT_INDEX).fd = -1 ↔ c1._client.fd < 0) ∧
      ((c1._pollables SERVER_INDEX).fd = -1 → c1._server.fd < 0) ∧
      (c1._quit = false →
        ((c1._pollables SERVER_INDEX).fd = -1 ↔ c1._server.fd < 0))) ∧
    (∀ n c w c1 w1, Chat.iterations os n c0 w0 = some (c, w) → c._quit = false →
      c.loop_body os w = .ok () c1 w1 →
      (¬ ((c.before_client os w).state._quit = false ∧ c1._quit = true) →
        ((c1._pollables SERVER_INDEX).fd = -1 ↔ c1._server.fd < 0)) ∧
      ((c.before_client os w).state._quit = false ∧ c1._quit = true →
        c1._server.fd < 0 ∧ 0 ≤ (c1._pollables SERVER_INDEX).fd)) ∧
    (∀ fuel c1 w1, Chat.loop os fuel c0 w0 = some (.ok () c1 w1) →
      ((c1._pollables CLIENT_INDEX).fd = -1 ↔ c1._client.fd < 0) ∧
      ((c1._pollables SERVER_INDEX).fd = -1 → c1._server.fd < 0) ∧
      ∃ n c w, Chat.iterations os n c0 w0 = some (c, w) ∧ c._quit = false ∧
        c.loop_body os w = .ok () c1 w1) := by
  obtain ⟨hrun, hq0⟩ := Chat.init_running hinit
  refine ⟨?_, ?_, ?_⟩
  · intro n c1 w1 h
    have hr := Chat.iterations_running os n c0 w0 c1 w1 hrun h
    refine ⟨hr.1.2.1, hr.1.2.2, fun hq => ⟨hr.1.2.2, fun hneg => ?_⟩⟩
    have := hr.2 hq
    rw [Socket.fd] at hneg
    omega
  · intro n c w c1 w1 hit hq hbody
    have hr := Chat.iterations_running os n c0 w0 c w hrun hit
    obtain ⟨hr1, hfull, hlag⟩ := Chat.loop_body_running hbody hr hq
    exact ⟨fun hnot => ⟨hr1.1.2.2, hfull hnot⟩, hlag⟩
  · intro fuel c1 w1 h
    have hs := (Chat.loop_sync os fuel c0 w0 c1 w1 hrun.1 h).1
    exact ⟨hs.2.1, hs.2.2, Chat.loop_final os fuel c0 w0 c1 w1 hq0 h⟩

/-- Witness of C8, amended: the run in which one peer connects and then
closes.  After the first iteration `_quit` is unset and the two slots agree
with the two sockets; the second iteration, entered from that state, has its
shutdown triggered in the dispatch of the CLIENT slot, and ends with `_server`
owning nothing and the SERVER slot still holding a descriptor. -/
theorem Chat.watch_slots_follow_sockets_witness :
    (((peerClosesMiddle.1._pollables CLIENT_INDEX).fd = -1 ↔
        peerClosesMiddle.1._client.fd < 0) ∧
      ((peerClosesMiddle.1._pollables SERVER_INDEX).fd = -1 →
        peerClosesMiddle.1._server.fd < 0) ∧
      (peerClosesMiddle.1._quit = false →
        ((peerClosesMiddle.1._pollables SERVER_INDEX).fd = -1 ↔
          peerClosesMiddle.1._server.fd < 0))) ∧
    ((peerClosesMiddle.1.loop_body osPeerCloses peerClosesMiddle.2).state._server.fd < 0 ∧
      0 ≤ ((peerClosesMiddle.1.loop_body osPeerCloses
        peerClosesMiddle.2).state._pollables SERVER_INDEX).fd) :=
  ⟨(Chat.watch_slots_follow_sockets osPeerCloses 0 10000 world0
      peerClosesStart.1 peerClosesStart.2
      (Result.eq_ok_of_isOk _ (by decide))).1 1 peerClosesMiddle.1 peerClosesMiddle.2
      (Option.eq_some_getD _ (Chat.new, world0) (by decide)),
   ((Chat.watch_slots_follow_sockets osPeerCloses 0 10000 world0
      peerClosesStart.1 peerClosesStart.2
      (Result.eq_ok_of_isOk _ (by decide))).2.1 1 peerClosesMiddle.1 peerClosesMiddle.2
      _ _
      (Option.eq_some_getD _ (Chat.new, world0) (by decide)) (by decide)
      (Result.eq_ok_of_isOk _ (by decide))).2 ⟨by decide, by decide⟩⟩

/-! ## Forwarding -/

theorem transmitted_append (fd : Int) (xs ys : List Event) :
    transmitted fd (xs ++ ys) = transmitted fd xs ++ transmitted fd ys := by
  induction xs with
  | nil => rfl
  | cons e es ih => cases e <;> simp [transmitted, ih]

theorem written_append (xs ys : List Event) :
    written (xs ++ ys) = written xs ++ written ys := by
  induction xs with
  | nil => rfl
  | cons e es ih => cases e <;> simp [written, ih]

theorem written_call (w : World) (e : Event) (h : written [e] = []) :
    written (w.call e).trace = written w.trace := by
  simp [World.call, written_append, h]

theorem Socket.close_written (os : OS) (s : Socket) (w : World) :
    written (s.close os w).world.trace = written w.trace := by
  by_cases hown : 0 ≤ s._fd
  · rw [Socket.close_of_nonneg os s w hown]
    by_cases hrc : os.closeRc w.tick = 0
    · simp [hrc, Result.world, written_call, written]
    · simp [hrc, Result.world, written_call, written]
  · rw [Socket.close_of_neg os s w (not_le.mp hown)]
    rfl

theorem Chat.quit_written (os : OS) (c : Chat) (w : World) :
    written (c.quit os w).world.trace = written w.trace := by
  unfold Chat.quit Chat.withServer Chat.withClient
  have h1 := Socket.close_written os c._server w
  cases hs : c._server.close os w with
  | raise m s2 w2 =>
    rw [hs] at h1
    simpa [Result.andThen, Result.world] using h1
  | ok a s2 w2 =>
    rw [hs] at h1
    have h2 := Socket.close_written os c._client w2
    cases hc : c._client.close os w2 with
    | raise m s3 w3 =>
      rw [hc] at h2
      simp only [Result.andThen, hc, Result.world] at h1 h2 ⊢
      rw [h2, h1]
    | ok b s3 w3 =>
      rw [hc] at h2
      simp only [Result.andThen, hc, Result.world] at h1 h2 ⊢
      rw [h2, h1]

theorem Chat.on_client_tail_written (os : OS) (i : Fin 5) (c : Chat) (w : World) :
    written (c.on_client_tail os i w).world.trace = written w.trace := by
  unfold Chat.on_client_tail
  split_ifs
  · exact Chat.quit_written os _ w
  · rfl

theorem Socket.recv_ok_written {os : OS} {str b : Bytes} {s s1 : Socket} {w w1 : World}
    (h : s.recv os str w = .ok b s1 w1) : written w1.trace = written w.trace := by
  unfold Socket.recv at h
  by_cases h1 : os.recvRc w.tick < 0
  · simp [h1] at h
  · by_cases h2 : os.recvRc w.tick = 0
    · rw [h2] at h
      have hc1 := Socket.close_written os s (w.call (.sysRecv s._fd 0))
      cases hc : s.close os (w.call (.sysRecv s._fd 0)) with
      | raise m s2 w2 => simp [hc] at h
      | ok a s2 w2 =>
        simp [hc] at h
        rw [hc] at hc1
        rw [← h.2.2]
        simpa [Result.world, written_call, written] using hc1
    · simp [h1, h2] at h
      rw [← h.2.2]
      simp [written_call, written]

/-- C3, as stated, fails.  The connected reactor reads the five bytes `hello`
from the standard input and hands them to `send` on the client descriptor 4;
`send` takes two bytes and returns 2; `Chat::on_stdin` returns normally, and
what has been transmitted to the client is `he`, not `hello`. -/
theorem Chat.forwarding_counterexample :
    ((chatConnected.observed (fun i => if i = STDIN_INDEX then POLLIN else 0)).on_stdin
        osShortSend STDIN_INDEX world4).isOk = true ∧
    ((chatConnected.observed (fun i => if i = STDIN_INDEX then POLLIN else 0)).on_stdin
        osShortSend STDIN_INDEX world4).world.trace
      = [.sysRead 0 5, .sysSend 4 [104, 101, 108, 108, 111] 2] ∧
    transmitted 4
      ((chatConnected.observed (fun i => if i = STDIN_INDEX then POLLIN else 0)).on_stdin
        osShortSend STDIN_INDEX world4).world.trace = [104, 101] ∧
    transmitted 4
      ((chatConnected.observed (fun i => if i = STDIN_INDEX then POLLIN else 0)).on_stdin
        osShortSend STDIN_INDEX world4).world.trace ≠ [104, 101, 108, 108, 111] := by
  refine ⟨by decide, by decide, by decide, by decide⟩

/-- C3, amended.  With the slot active and readable and `_client` owning a
descriptor: the bytes `b` that `Chat::on_stdin` reads from the standard input
are handed, unaltered and in one `send` call, to the client descriptor, and
what is transmitted is the first `r` bytes of `b`, `r` being the count that
`send` returns, hence exactly `b` when `send` returns the length of `b` (the
rest is not sent again); and the bytes `b1` that the client's `recv` returns
in `Chat::on_client` are exactly what is appended to the standard output. -/
theorem Chat.forwarding (os : OS) (c : Chat) (w : World) (i : Fin 5)
    (hslot : (c._pollables i).fd ≥ 0)
    (hready : (c._pollables i).revents &&& POLLIN ≠ 0)
    (hclient : c._client.fd ≥ 0) :
    (0 ≤ os.readRc w.tick →
      (c.on_stdin os i w).world
        = (w.call (.sysRead STDIN_FILENO (os.readRc w.tick))).call
            (.sysSend c._client.fd
              ((os.readBuf w.tick).take (os.readRc w.tick).toNat)
              (os.sendRc (w.tick + 1))) ∧
      transmitted c._client.fd (c.on_stdin os i w).world.trace
        = transmitted c._client.fd w.trace ++
            (((os.readBuf w.tick).take (os.readRc w.tick).toNat).take
              (os.sendRc (w.tick + 1)).toNat) ∧
      (os.sendRc (w.tick + 1)
          = (((os.readBuf w.tick).take (os.readRc w.tick).toNat).length : Int) →
        transmitted c._client.fd (c.on_stdin os i w).world.trace
          = transmitted c._client.fd w.trace ++
              (os.readBuf w.tick).take (os.readRc w.tick).toNat)) ∧
    (∀ b1 s1 w1, c._client.recv os [] w = .ok b1 s1 w1 →
      written (c.on_client os i w).world.trace = written w.trace ++ b1) := by
  have h1 : ¬ (c._pollables i).fd < 0 := not_lt.mpr hslot
  constructor
  · intro hread
    have h3 : ¬ os.readRc w.tick < 0 := not_lt.mpr hread
    have hw : (c.on_stdin os i w).world
        = (w.call (.sysRead STDIN_FILENO (os.readRc w.tick))).call
            (.sysSend c._client.fd
              ((os.readBuf w.tick).take (os.readRc w.tick).toNat)
              (os.sendRc (w.tick + 1))) := by
      have ht : (w.call (.sysRead STDIN_FILENO (os.readRc w.tick))).tick = w.tick + 1 := rfl
      unfold Chat.on_stdin
      rw [if_neg h1, if_pos hready]
      simp only [h3, if_false, hclient, if_true, Chat.withClient, Socket.send, ht]
      split_ifs <;> rfl
    have htr : transmitted c._client.fd (c.on_stdin os i w).world.trace
        = transmitted c._client.fd w.trace ++
            (((os.readBuf w.tick).take (os.readRc w.tick).toNat).take
              (os.sendRc (w.tick + 1)).toNat) := by
      rw [hw]
      simp [World.call, transmitted_append, transmitted]
    refine ⟨hw, htr, ?_⟩
    intro hall
    have hlen : (os.sendRc (w.tick + 1)).toNat
        = ((os.readBuf w.tick).take (os.readRc w.tick).toNat).length := by
      rw [hall]
      exact Int.toNat_ofNat _
    rw [htr, hlen, List.take_length]
  · intro b1 s1 w1 hrecv
    unfold Chat.on_client
    rw [if_neg h1, if_pos hready, if_pos hclient]
    simp only [Chat.withClient, hrecv, Result.andThen]
    rw [Chat.on_client_tail_written]
    simp [World.emit, written_append, written, Socket.recv_ok_written hrecv]

/-- Witness of C3, amended: the connected reactor reads `hello` and `send`
takes the five bytes; and the client's `recv` delivers `hi`, which is what is
written to the standard output. -/
theorem Chat.forwarding_witness :
    transmitted 4
      ((chatConnected.observed (fun _ => POLLIN)).on_stdin osTyped STDIN_INDEX world4).world.trace
      = transmitted 4 world4.trace ++ [104, 101, 108, 108, 111] ∧
    written
      ((chatConnected.observed (fun _ => POLLIN)).on_client osRecvHi CLIENT_INDEX world4).world.trace
      = written world4.trace ++ [104, 105] :=
  ⟨((Chat.forwarding osTyped (chatConnected.observed (fun _ => POLLIN)) world4 STDIN_INDEX
      (by decide) (by decide) (by decide)).1 (by decide)).2.2 (by decide),
   (Chat.forwarding osRecvHi (chatConnected.observed (fun _ => POLLIN)) world4 CLIENT_INDEX
      (by decide) (by decide) (by decide)).2 [104, 105] (Socket.mk 4)
      (world4.call (.sysRecv 4 2)) (by rfl)⟩

/-- C10: the code raises where the claim says it does not.  The standard
input hangs up in the iteration in which a connection is pending: slots 0 to
2 are dispatched normally and leave `_server` closed (-1) with the SERVER slot
still holding descriptor 3 and reported readable; `Chat::on_server` then
calls `accept` on the closed socket and throws `accept() has failed`; the
SERVER slot still holds 3, and the iteration ends with that exception.  From
the same state with the SERVER slot not reported readable, `on_server` returns
normally and sets the slot to -1. -/
theorem Chat.on_server_after_shutdown_raises :
    (Chat.dispatch_from osStdinHangup [0, 1, 2]
      (chatListening.poll osStdinHangup world3).2.1
      (chatListening.poll osStdinHangup world3).2.2).isOk = true ∧
    (Chat.dispatch_from osStdinHangup [0, 1, 2]
      (chatListening.poll osStdinHangup world3).2.1
      (chatListening.poll osStdinHangup world3).2.2).state._server.fd = -1 ∧
    ((Chat.dispatch_from osStdinHangup [0, 1, 2]
      (chatListening.poll osStdinHangup world3).2.1
      (chatListening.poll osStdinHangup world3).2.2).state._pollables SERVER_INDEX).fd = 3 ∧
    ((Chat.dispatch_from osStdinHangup [0, 1, 2]
      (chatListening.poll osStdinHangup world3).2.1
      (chatListening.poll osStdinHangup world3).2.2).state._pollables SERVER_INDEX).revents
      = POLLIN ∧
    ((Chat.dispatch_from osStdinHangup [0, 1, 2]
        (chatListening.poll osStdinHangup world3).2.1
        (chatListening.poll osStdinHangup world3).2.2).state.on_server osStdinHangup
      SERVER_INDEX
      (Chat.dispatch_from osStdinHangup [0, 1, 2]
        (chatListening.poll osStdinHangup world3).2.1
        (chatListening.poll osStdinHangup world3).2.2).world).what
      = some "accept() has failed" ∧
    (((Chat.dispatch_from osStdinHangup [0, 1, 2]
        (chatListening.poll osStdinHangup world3).2.1
        (chatListening.poll osStdinHangup world3).2.2).state.on_server osStdinHangup
      SERVER_INDEX
      (Chat.dispatch_from osStdinHangup [0, 1, 2]
        (chatListening.poll osStdinHangup world3).2.1
        (chatListening.poll osStdinHangup world3).2.2).world).state._pollables
          SERVER_INDEX).fd = 3 ∧
    (chatListening.loop_body osStdinHangup world3).what = some "accept() has failed" ∧
    (((Chat.dispatch_from osStdinHangup [0, 1, 2]
        (chatListening.poll osStdinHangup world3).2.1
        (chatListening.poll osStdinHangup world3).2.2).state.observed
          (fun _ => 0)).on_server osStdinHangup SERVER_INDEX
      (Chat.dispatch_from osStdinHangup [0, 1, 2]
        (chatListening.poll osStdinHangup world3).2.1
        (chatListening.poll osStdinHangup world3).2.2).world).isOk = true ∧
    ((((Chat.dispatch_from osStdinHangup [0, 1, 2]
        (chatListening.poll osStdinHangup world3).2.1
        (chatListening.poll osStdinHangup world3).2.2).state.observed
          (fun _ => 0)).on_server osStdinHangup SERVER_INDEX
      (Chat.dispatch_from osStdinHangup [0, 1, 2]
        (chatListening.poll osStdinHangup world3).2.1
        (chatListening.poll osStdinHangup world3).2.2).world).state._pollables
          SERVER_INDEX).fd = -1 := by
  refine ⟨by decide, by decide, by decide, by decide, by decide, by decide, by decide,
    by decide, by decide⟩

end ChatServer
